import Mathlib

/-!
# secp256k1 extension layer (`crypto/secp256k1/ext.h`)

A shallow embedding of the C helper functions of `ext.h` and a verification of
their contracts.  Byte buffers are width-indexed lists of bytes, C `int` results
are natural numbers, and the primitives of the underlying curve arithmetic
library (which `ext.h` only calls) are modelled from the specification: scalars
are integers modulo the group order, field elements integers modulo the field
prime, and group elements affine points under the chord-and-tangent rule.

Pointer arguments are buffers passed by value, so the `ARG_CHECK`s on null
pointers have no counterpart; an output buffer is passed with its content before
the call and returned with its content after it.  The context handle `ctx`
carries only the precomputed tables of the generator and is not a parameter.

The field prime and the group order are proved prime by Pratt certificates, and
the model group is related to the group of the curve `y^2 = x^3 + 7` over the
integers modulo the field prime, which gives the order of the generator.
-/

namespace Secp256k1

set_option linter.unusedVariables false

/-! ## Byte buffers -/

/-- An `unsigned char`. -/
abbrev Byte := Fin 256

/-- A caller-supplied buffer holding exactly `n` bytes. -/
abbrev Buf (n : Nat) := { bytes : List Byte // bytes.length = n }

/-- The unsigned integer a byte string denotes, most significant byte first. -/
def beValue (l : List Byte) : Nat :=
  l.foldl (fun acc b => acc * 256 + b.val) 0

/-- The `k` least significant base-256 digits of `v`, most significant first. -/
def beBytes : (k : Nat) → Nat → Buf k
  | 0, _ => ⟨[], rfl⟩
  | k + 1, v =>
    ⟨(beBytes k (v / 256)).1 ++ [⟨v % 256, Nat.mod_lt v (by decide)⟩],
      by simp [(beBytes k (v / 256)).2]⟩

/-- The 32-byte big-endian buffer of a value (reduced modulo `2^256`). -/
def be32 (v : Nat) : Buf 32 := beBytes 32 v

/-- The 32 bytes at `p` of a 64-byte buffer `p`. -/
def lo32 (p : Buf 64) : Buf 32 :=
  ⟨p.1.take 32, by simp [p.2]⟩

/-- The 32 bytes at `p + 32` of a 64-byte buffer `p`. -/
def hi32 (p : Buf 64) : Buf 32 :=
  ⟨p.1.drop 32, by simp [p.2]⟩

/-- Store 32 bytes at `p`, leaving the bytes at `p + 32` as they were. -/
def storeLo (p : Buf 64) (d : Buf 32) : Buf 64 :=
  ⟨d.1 ++ p.1.drop 32, by simp [p.2, d.2]⟩

/-- Store 32 bytes at `p + 32`, leaving the bytes at `p` as they were. -/
def storeHi (p : Buf 64) (d : Buf 32) : Buf 64 :=
  ⟨p.1.take 32 ++ d.1, by simp [p.2, d.2]⟩

/-! ## Scalars of the curve arithmetic library -/

/-- The order `n` of the secp256k1 group. -/
def N_ORDER : Nat :=
  0xFFFFFFFFFFFFFFFFFFFFFFFFFFFFFFFEBAAEDCE6AF48A03BBFD25E8CD0364141

/-- Modelled from the spec: the library's scalar type `secp256k1_scalar`, whose
declaration is not part of `ext.h`: "256-bit unsigned integer, reduced modulo the
curve order `n`". -/
abbrev secp256k1_scalar := Nat

/-- Modelled from the spec: `secp256k1_scalar_set_b32`, not part of `ext.h`:
"scalar from ... 32-byte big-endian buffer with overflow detection"; "a scalar
read from a 32-byte buffer that is `>= n` is flagged as overflow".  The result is
the reduced scalar together with the value stored into `*overflow`. -/
def secp256k1_scalar_set_b32 (b32 : Buf 32) : secp256k1_scalar × Bool :=
  (beValue b32.1 % N_ORDER, decide (N_ORDER ≤ beValue b32.1))

/-- Modelled from the spec: `secp256k1_scalar_is_zero`, the library's "zero
test". -/
def secp256k1_scalar_is_zero (a : secp256k1_scalar) : Bool := decide (a = 0)

/-- Modelled from the spec: `secp256k1_scalar_negate`, the library's "negate"
modulo the curve order. -/
def secp256k1_scalar_negate (a : secp256k1_scalar) : secp256k1_scalar :=
  (N_ORDER - a % N_ORDER) % N_ORDER

/-- Modelled from the spec: `secp256k1_scalar_add`, the library's "add" modulo
the curve order. -/
def secp256k1_scalar_add (a b : secp256k1_scalar) : secp256k1_scalar :=
  (a + b) % N_ORDER

/-- Modelled from the spec: `secp256k1_scalar_mul`, the library's "multiply"
modulo the curve order. -/
def secp256k1_scalar_mul (a b : secp256k1_scalar) : secp256k1_scalar :=
  (a * b) % N_ORDER

/-- Modelled from the spec: `secp256k1_scalar_get_b32`, the library's "scalar ...
to 32-byte big-endian buffer". -/
def secp256k1_scalar_get_b32 (a : secp256k1_scalar) : Buf 32 := be32 a

/-- Modelled from the spec: `secp256k1_scalar_clear`, the "explicit wipe": the
content of a scalar after it has been cleared. -/
def secp256k1_scalar_clear : secp256k1_scalar := 0

/-! ## Field and group elements of the curve arithmetic library -/

/-- The field prime `p = 2^256 - 2^32 - 977` of secp256k1. -/
def P_FIELD : Nat :=
  0xFFFFFFFFFFFFFFFFFFFFFFFFFFFFFFFFFFFFFFFFFFFFFFFFFFFFFFFEFFFFFC2F

/-- Modelled from the spec: the library's field element type `secp256k1_fe`,
whose declaration is not part of `ext.h`: "256-bit unsigned integer, reduced
modulo the field prime `p`" once normalized. -/
abbrev secp256k1_fe := Nat

/-- Modelled from the spec: `secp256k1_fe_set_b32`, "field element from ...
32-byte big-endian buffer" (its return value is unused in `ext.h`). -/
def secp256k1_fe_set_b32 (a : Buf 32) : secp256k1_fe := beValue a.1

/-- Modelled from the spec: `secp256k1_fe_normalize`: "always normalized to
canonical form before being serialized to bytes". -/
def secp256k1_fe_normalize (r : secp256k1_fe) : secp256k1_fe := r % P_FIELD

/-- Modelled from the spec: `secp256k1_fe_get_b32`, "field element ... to
32-byte big-endian buffer". -/
def secp256k1_fe_get_b32 (a : secp256k1_fe) : Buf 32 := be32 a

/-- Modelled from the spec: the library's affine group element `secp256k1_ge`:
"affine `(x, y)` both field elements", which "distinguishes the identity (point
at infinity) from finite points". -/
structure secp256k1_ge where
  x : secp256k1_fe
  y : secp256k1_fe
  infinity : Bool
deriving DecidableEq, Repr

/-- Modelled from the spec: the library's Jacobian group element `secp256k1_gej`,
"used internally for addition to avoid costly inversions"; it is represented here
by the affine element it denotes. -/
abbrev secp256k1_gej := secp256k1_ge

/-- Modelled from the spec: `secp256k1_ge_set_xy`, "group element from affine
(x,y)"; the point is taken as given, without a curve check. -/
def secp256k1_ge_set_xy (x y : secp256k1_fe) : secp256k1_ge :=
  { x := x, y := y, infinity := false }

/-- The point at infinity, with its coordinates zeroed. -/
def geInfinity : secp256k1_ge := { x := 0, y := 0, infinity := true }

/-- Product modulo `p`. -/
def feMul (a b : Nat) : Nat := a * b % P_FIELD

/-- Difference modulo `p`. -/
def feSub (a b : Nat) : Nat := (a + (P_FIELD - b % P_FIELD)) % P_FIELD

/-- Square-and-multiply `b ^ e` modulo `m` over at most `bits` bits of `e`. -/
def powMod (m : Nat) : Nat → Nat → Nat → Nat
  | 0, _, _ => 1 % m
  | bits + 1, b, e =>
    if e = 0 then 1 % m
    else
      let h := powMod m bits (b * b % m) (e / 2)
      if e % 2 = 1 then b * h % m else h

/-- Inverse modulo `p`, as the power `a ^ (p - 2)`. -/
def feInv (a : Nat) : Nat := powMod P_FIELD 256 (a % P_FIELD) (P_FIELD - 2)

/-- The point with both coordinates reduced modulo `p`. -/
def geReduce (a : secp256k1_ge) : secp256k1_ge :=
  if a.infinity then geInfinity
  else { x := a.x % P_FIELD, y := a.y % P_FIELD, infinity := false }

/-- Doubling of a point by the tangent rule of `y^2 = x^3 + 7`. -/
def geDouble (a : secp256k1_ge) : secp256k1_ge :=
  if a.infinity then geInfinity
  else
    let x := a.x % P_FIELD
    let y := a.y % P_FIELD
    if y = 0 then geInfinity
    else
      let l := feMul (feMul 3 (feMul x x)) (feInv (feMul 2 y))
      let x3 := feSub (feSub (feMul l l) x) x
      let y3 := feSub (feMul l (feSub x x3)) y
      { x := x3, y := y3, infinity := false }

/-- Sum of two points by the chord-and-tangent rule. -/
def geAdd (a b : secp256k1_ge) : secp256k1_ge :=
  if a.infinity then geReduce b
  else if b.infinity then geReduce a
  else
    let x1 := a.x % P_FIELD
    let y1 := a.y % P_FIELD
    let x2 := b.x % P_FIELD
    let y2 := b.y % P_FIELD
    if x1 = x2 then
      if y1 = y2 then geDouble a else geInfinity
    else
      let l := feMul (feSub y2 y1) (feInv (feSub x2 x1))
      let x3 := feSub (feSub (feMul l l) x1) x2
      let y3 := feSub (feMul l (feSub x1 x3)) y1
      { x := x3, y := y3, infinity := false }

/-- Double-and-add multiple `k * a` over the `bits` low bits of `k`. -/
def geMulBits : Nat → Nat → secp256k1_ge → secp256k1_ge
  | 0, _, _ => geInfinity
  | bits + 1, k, a =>
    let d := geDouble (geMulBits bits (k / 2) a)
    if k % 2 = 1 then geAdd d a else d

/-- The multiple `k * a` of a point by a 256-bit scalar. -/
def geMul (k : Nat) (a : secp256k1_ge) : secp256k1_ge := geMulBits 256 k a

/-- Modelled from the spec: the library constant `secp256k1_ge_const_g`, "the
curve's base point", with "the known generator coordinates" of "the curve's
published parameters". -/
def secp256k1_ge_const_g : secp256k1_ge :=
  { x := 0x79BE667EF9DCBBAC55A06295CE870B07029BFCDB2DCE28D959F2815B16F81798
    y := 0x483ADA7726A3C4655DA4FBFC0E1108A8FD17B448A68554199C47D08FFB10D4B8
    infinity := false }

/-- Modelled from the spec: `secp256k1_ecmult_const`, "constant-time scalar
multiplication of an arbitrary point". -/
def secp256k1_ecmult_const (a : secp256k1_ge) (q : secp256k1_scalar) : secp256k1_gej :=
  geMul q a

/-- Modelled from the spec: `secp256k1_ecmult_gen`, "constant-time scalar
multiplication of the fixed base (generator) point"; the generator tables of the
context handle are those of `secp256k1_ge_const_g`. -/
def secp256k1_ecmult_gen (gn : secp256k1_scalar) : secp256k1_gej :=
  geMul gn secp256k1_ge_const_g

/-- Modelled from the spec: `secp256k1_gej_add_ge`, "Jacobian point addition" of
a Jacobian and an affine element. -/
def secp256k1_gej_add_ge (a : secp256k1_gej) (b : secp256k1_ge) : secp256k1_gej :=
  geAdd a b

/-- Modelled from the spec: `secp256k1_ge_set_gej`, "group element ... from
Jacobian". -/
def secp256k1_ge_set_gej (a : secp256k1_gej) : secp256k1_ge := geReduce a

/-! ## Scalar field arithmetic helpers -/

/-- What a call of one of the scalar helpers leaves behind: the returned `int`,
the content of the buffer `out`, and the final content of each local
`secp256k1_scalar` in the order of its declaration (`none` for a local that was
never assigned). -/
structure ScResult where
  ret : Nat
  out : Buf 32
  temps : List (Option secp256k1_scalar)

/-- The function `secp256k1_ext_sc_mul` (locals `r, a, b`); `out` is the content
of the output buffer before the call. -/
def secp256k1_ext_sc_mul (out s1 s2 : Buf 32) : ScResult :=
  let (a, overflow) := secp256k1_scalar_set_b32 s1
  if overflow || secp256k1_scalar_is_zero a then
    { ret := 0, out := out, temps := [none, some a, none] }
  else
    let (b, overflow) := secp256k1_scalar_set_b32 s2
    if overflow || secp256k1_scalar_is_zero b then
      { ret := 0, out := out, temps := [none, some a, some b] }
    else
      let r := secp256k1_scalar_mul a b
      let a := secp256k1_scalar_clear
      let b := secp256k1_scalar_clear
      let out := secp256k1_scalar_get_b32 r
      { ret := 1, out := out, temps := [some r, some a, some b] }

/-- The function `secp256k1_ext_sc_sub` (locals `r, n, a, b`); `out` is the
content of the output buffer before the call. -/
def secp256k1_ext_sc_sub (out s1 s2 : Buf 32) : ScResult :=
  let (a, overflow) := secp256k1_scalar_set_b32 s1
  if overflow || secp256k1_scalar_is_zero a then
    { ret := 0, out := out, temps := [none, none, some a, none] }
  else
    let (b, overflow) := secp256k1_scalar_set_b32 s2
    if overflow || secp256k1_scalar_is_zero b then
      { ret := 0, out := out, temps := [none, none, some a, some b] }
    else
      let n := secp256k1_scalar_negate b
      let r := secp256k1_scalar_add a n
      let a := secp256k1_scalar_clear
      let b := secp256k1_scalar_clear
      let n := secp256k1_scalar_clear
      let out := secp256k1_scalar_get_b32 r
      { ret := 1, out := out, temps := [some r, some n, some a, some b] }

/-- The function `secp256k1_ext_sc_add` (locals `r, a, b`); `out` is the content
of the output buffer before the call. -/
def secp256k1_ext_sc_add (out s1 s2 : Buf 32) : ScResult :=
  let (a, overflow) := secp256k1_scalar_set_b32 s1
  if overflow || secp256k1_scalar_is_zero a then
    { ret := 0, out := out, temps := [none, some a, none] }
  else
    let (b, overflow) := secp256k1_scalar_set_b32 s2
    if overflow || secp256k1_scalar_is_zero b then
      { ret := 0, out := out, temps := [none, some a, some b] }
    else
      let r := secp256k1_scalar_add a b
      let a := secp256k1_scalar_clear
      let b := secp256k1_scalar_clear
      let out := secp256k1_scalar_get_b32 r
      { ret := 1, out := out, temps := [some r, some a, some b] }

/-! ## Constant-time scalar multiplication and Schnorr verification -/

/-- The 64-byte buffer made of two 32-byte halves. -/
def join32 (a b : Buf 32) : Buf 64 :=
  ⟨a.1 ++ b.1, by simp [a.2, b.2]⟩

/-- What a call of one of the point multiplications leaves behind: the returned
`int`, the content of the 64-byte output buffer, and the final content of each
local `secp256k1_scalar` in the order of its declaration. -/
structure PointResult where
  ret : Nat
  out : Buf 64
  temps : List (Option secp256k1_scalar)

/-- The function `secp256k1_ext_scalar_mul` (local scalar `s`): `point` is read
and, on success, overwritten in place; the field `out` is its final content. -/
def secp256k1_ext_scalar_mul (point : Buf 64) (scalar : Buf 32) : PointResult :=
  let feX := secp256k1_fe_set_b32 (lo32 point)
  let feY := secp256k1_fe_set_b32 (hi32 point)
  let ge := secp256k1_ge_set_xy feX feY
  let (s, overflow) := secp256k1_scalar_set_b32 scalar
  if overflow || secp256k1_scalar_is_zero s then
    let ret := 0
    let s := secp256k1_scalar_clear
    { ret := ret, out := point, temps := [some s] }
  else
    let res := secp256k1_ecmult_const ge s
    let ge := secp256k1_ge_set_gej res
    let ge := { ge with x := secp256k1_fe_normalize ge.x }
    let ge := { ge with y := secp256k1_fe_normalize ge.y }
    let point := storeLo point (secp256k1_fe_get_b32 ge.x)
    let point := storeHi point (secp256k1_fe_get_b32 ge.y)
    let ret := 1
    let s := secp256k1_scalar_clear
    { ret := ret, out := point, temps := [some s] }

/-- The function `secp256k1_ext_scalar_mul_bytes` (local scalar `s`); `out` is
the content of the output buffer before the call. -/
def secp256k1_ext_scalar_mul_bytes (out point : Buf 64) (scalar : Buf 32) : PointResult :=
  let feX := secp256k1_fe_set_b32 (lo32 point)
  let feY := secp256k1_fe_set_b32 (hi32 point)
  let ge := secp256k1_ge_set_xy feX feY
  let (s, overflow) := secp256k1_scalar_set_b32 scalar
  if overflow || secp256k1_scalar_is_zero s then
    let ret := 0
    let s := secp256k1_scalar_clear
    { ret := ret, out := out, temps := [some s] }
  else
    let res := secp256k1_ecmult_const ge s
    let ge := secp256k1_ge_set_gej res
    let ge := { ge with x := secp256k1_fe_normalize ge.x }
    let ge := { ge with y := secp256k1_fe_normalize ge.y }
    let out := storeLo out (secp256k1_fe_get_b32 ge.x)
    let out := storeHi out (secp256k1_fe_get_b32 ge.y)
    let ret := 1
    let s := secp256k1_scalar_clear
    { ret := ret, out := out, temps := [some s] }

/-- The function `secp256k1_ext_scalar_base_mult` (local scalar `s`); `out` is
the content of the output buffer before the call. -/
def secp256k1_ext_scalar_base_mult (out : Buf 64) (scalar : Buf 32) : PointResult :=
  let (s, overflow) := secp256k1_scalar_set_b32 scalar
  if overflow || secp256k1_scalar_is_zero s then
    { ret := 0, out := out, temps := [some s] }
  else
    let point := secp256k1_ecmult_gen s
    let ge := secp256k1_ge_set_gej point
    let ge := { ge with x := secp256k1_fe_normalize ge.x }
    let ge := { ge with y := secp256k1_fe_normalize ge.y }
    let out := storeLo out (secp256k1_fe_get_b32 ge.x)
    let out := storeHi out (secp256k1_fe_get_b32 ge.y)
    let s := secp256k1_scalar_clear
    { ret := 1, out := out, temps := [some s] }

/-- What a call of the Schnorr verification leaves behind: the returned `int`
and the final content of its local scalar `sc`. -/
structure VerifyResult where
  ret : Nat
  temps : List (Option secp256k1_scalar)

/-- The function `secp256k1_ext_schnorr_verify` (local scalar `sc`, local
64-byte array `tmp`, both halves of which are written before the comparison). -/
def secp256k1_ext_schnorr_verify (P R : Buf 64) (s e : Buf 32) : VerifyResult :=
  let feX := secp256k1_fe_set_b32 (lo32 P)
  let feY := secp256k1_fe_set_b32 (hi32 P)
  let ge := secp256k1_ge_set_xy feX feY
  let (sc, overflow) := secp256k1_scalar_set_b32 e
  if overflow || secp256k1_scalar_is_zero sc then
    { ret := 0, temps := [some sc] }
  else
    let ep := secp256k1_ecmult_const ge sc
    let sc := secp256k1_scalar_clear
    let (sc, overflow) := secp256k1_scalar_set_b32 s
    if overflow || secp256k1_scalar_is_zero sc then
      { ret := 0, temps := [some sc] }
    else
      let sg := secp256k1_ecmult_gen sc
      let ge := secp256k1_ge_set_gej sg
      let sc := secp256k1_scalar_clear
      let V := secp256k1_gej_add_ge ep ge
      let ge := secp256k1_ge_set_gej V
      let ge := { ge with x := secp256k1_fe_normalize ge.x }
      let ge := { ge with y := secp256k1_fe_normalize ge.y }
      let tmp := join32 (secp256k1_fe_get_b32 ge.x) (secp256k1_fe_get_b32 ge.y)
      { ret := if tmp = R then 1 else 0, temps := [some sc] }

/-- The buffer `R` with bit `j` of its byte `i` flipped. -/
def flipBit (R : Buf 64) (i : Fin 64) (j : Fin 8) : Buf 64 :=
  ⟨R.1.set i.val
      ⟨((R.1.get ⟨i.val, by rw [R.2]; exact i.isLt⟩).val ^^^ 2 ^ j.val) % 256,
        Nat.mod_lt _ (by decide)⟩,
    by simp [R.2]⟩

/-- The affine point a raw 64-byte buffer is decoded to: `secp256k1_fe_set_b32`
on either half followed by `secp256k1_ge_set_xy`. -/
def pointOf (P : Buf 64) : secp256k1_ge :=
  secp256k1_ge_set_xy (secp256k1_fe_set_b32 (lo32 P)) (secp256k1_fe_set_b32 (hi32 P))

/-- The raw 64-byte big-endian `(x, y)` encoding of a point. -/
def encodePoint (g : secp256k1_ge) : Buf 64 := join32 (be32 g.x) (be32 g.y)

/-- The 64-byte buffer holds the canonical coordinates of a point of
`y^2 = x^3 + 7` over the field of `p` elements. -/
def OnCurve (P : Buf 64) : Prop :=
  beValue (lo32 P).1 < P_FIELD ∧ beValue (hi32 P).1 < P_FIELD ∧
  beValue (hi32 P).1 * beValue (hi32 P).1 % P_FIELD =
    (beValue (lo32 P).1 * beValue (lo32 P).1 * beValue (lo32 P).1 + 7) % P_FIELD

instance (P : Buf 64) : Decidable (OnCurve P) := by
  unfold OnCurve; infer_instance

/-! ## Public keys and ECDSA signatures of the curve arithmetic library -/

/-- Modelled from the spec: the library macro `SECP256K1_EC_COMPRESSED`, the flag
selecting the "compressed (33-byte)" public-key format; the number is the one of
the library header, only its difference from the uncompressed flag matters. -/
def SECP256K1_EC_COMPRESSED : Nat := 258

/-- Modelled from the spec: the library macro `SECP256K1_EC_UNCOMPRESSED`, the
flag selecting the "uncompressed (65-byte)" public-key format. -/
def SECP256K1_EC_UNCOMPRESSED : Nat := 2

/-- Modelled from the spec: the library type `secp256k1_pubkey`, "a non-identity
group element on the curve". -/
abbrev secp256k1_pubkey := secp256k1_ge

/-- The right-hand side `x^3 + 7` of the curve equation, modulo `p`. -/
def curveRhs (x : Nat) : Nat := (x * x * x + 7) % P_FIELD

/-- Candidate square root modulo `p`, as the power `a ^ ((p + 1) / 4)`. -/
def feSqrt (a : Nat) : Nat := powMod P_FIELD 256 (a % P_FIELD) ((P_FIELD + 1) / 4)

/-- The "compressed: 1 prefix byte + x-coordinate" form of a public key; the
prefix byte is 2 for an even and 3 for an odd `y`. -/
def compressedKey (Q : secp256k1_ge) : List Byte :=
  (⟨(2 + Q.y % 2) % 256, Nat.mod_lt _ (by decide)⟩ : Byte) :: (be32 Q.x).1

/-- The "uncompressed: 1 prefix byte + x + y" form of a public key; the prefix
byte is 4. -/
def uncompressedKey (Q : secp256k1_ge) : List Byte :=
  (4 : Byte) :: ((be32 Q.x).1 ++ (be32 Q.y).1)

/-- Modelled from the spec: `secp256k1_ec_pubkey_parse`, "parse in compressed
(33-byte) or uncompressed (65-byte) public-key format": "any byte buffer not
matching one of these two lengths/prefixes is rejected as malformed", as are
"malformed prefix/coordinates (point not on curve)".  The length of `input` is
the argument `inputlen`; `none` stands for the return value 0. -/
def secp256k1_ec_pubkey_parse (input : List Byte) : Option secp256k1_pubkey :=
  if input.length = 33 then
    let tag := (input.headD 0).val
    let x := beValue (input.drop 1)
    if (tag = 2 ∨ tag = 3) ∧ x < P_FIELD then
      let y := feSqrt (curveRhs x)
      if y * y % P_FIELD = curveRhs x then
        let y := if y % 2 = tag % 2 then y else (P_FIELD - y) % P_FIELD
        some { x := x, y := y, infinity := false }
      else none
    else none
  else if input.length = 65 then
    let tag := (input.headD 0).val
    let x := beValue ((input.drop 1).take 32)
    let y := beValue (input.drop 33)
    if tag = 4 ∧ x < P_FIELD ∧ y < P_FIELD ∧ y * y % P_FIELD = curveRhs x then
      some { x := x, y := y, infinity := false }
    else none
  else none

/-- Modelled from the spec: `secp256k1_ec_pubkey_serialize`, "serialize ... in
compressed (33-byte) or uncompressed (65-byte) public-key format" into a buffer
of `*outputlen` bytes.  A buffer too short for the requested format is a
"malformed encoding: buffer length ... does not match an expected key/signature
format", on which the call "fails fast with no partial output": it returns 0 and
stores nothing.  Otherwise the key's bytes are stored at the start of `output`
and `*outputlen` becomes their number.  The spec does not say what a longer
buffer holds after the key; the model leaves those bytes in place.  The result
is the return value, the content of `output` and the final `*outputlen`. -/
def secp256k1_ec_pubkey_serialize (output : List Byte) (outputlen : Nat)
    (pubkey : secp256k1_pubkey) (flags : Nat) : Nat × List Byte × Nat :=
  let bytes :=
    if flags = SECP256K1_EC_COMPRESSED then compressedKey pubkey else uncompressedKey pubkey
  if outputlen < bytes.length then (0, output, outputlen)
  else (1, bytes ++ output.drop bytes.length, bytes.length)

/-- Modelled from the spec: the library type `secp256k1_ecdsa_signature`, the
two scalars `r` and `s` of a compact signature. -/
structure secp256k1_ecdsa_signature where
  r : secp256k1_scalar
  s : secp256k1_scalar
deriving DecidableEq

/-- Modelled from the spec: `secp256k1_ecdsa_signature_parse_compact`, the
"ECDSA signature parse" of "64 bytes = 32-byte `r` + 32-byte `s`, both scalars",
which rejects a component that overflows; `none` stands for the return value
0. -/
def secp256k1_ecdsa_signature_parse_compact (input64 : Buf 64) :
    Option secp256k1_ecdsa_signature :=
  let (r, overflow_r) := secp256k1_scalar_set_b32 (lo32 input64)
  let (s, overflow_s) := secp256k1_scalar_set_b32 (hi32 input64)
  if overflow_r || overflow_s then none else some { r := r, s := s }

/-- Inverse modulo `n`, as the power `a ^ (n - 2)`. -/
def scalarInv (a : Nat) : Nat := powMod N_ORDER 256 (a % N_ORDER) (N_ORDER - 2)

/-- Modelled from the spec: `secp256k1_ecdsa_verify`, the "standard ECDSA
verification equation": `r` and `s` "must each be nonzero", and with
`w = 1 / s` the point `(m * w) * G + (r * w) * Q` has to be finite with an
`x`-coordinate equal to `r` modulo `n`. -/
def secp256k1_ecdsa_verify (sig : secp256k1_ecdsa_signature) (msg32 : Buf 32)
    (pubkey : secp256k1_pubkey) : Nat :=
  if secp256k1_scalar_is_zero sig.r || secp256k1_scalar_is_zero sig.s then 0
  else
    let m := (secp256k1_scalar_set_b32 msg32).1
    let sn := scalarInv sig.s
    let u1 := secp256k1_scalar_mul sn m
    let u2 := secp256k1_scalar_mul sn sig.r
    let pr := geAdd (geMul u1 secp256k1_ge_const_g) (geMul u2 pubkey)
    if pr.infinity then 0
    else if pr.x % N_ORDER = sig.r then 1 else 0

/-- Modelled from the spec: the library type
`secp256k1_ecdsa_recoverable_signature`, a compact signature with its "recovery
id (`0..3`)". -/
structure secp256k1_ecdsa_recoverable_signature where
  r : secp256k1_scalar
  s : secp256k1_scalar
  recid : Nat
deriving DecidableEq

/-- Modelled from the spec: `secp256k1_ecdsa_recoverable_signature_parse_compact`:
"recovery id values outside `0..3` must be rejected by the parse step", as is a
component that overflows; `none` stands for the return value 0. -/
def secp256k1_ecdsa_recoverable_signature_parse_compact (input64 : Buf 64) (recid : Nat) :
    Option secp256k1_ecdsa_recoverable_signature :=
  if recid ≤ 3 then
    let (r, overflow_r) := secp256k1_scalar_set_b32 (lo32 input64)
    let (s, overflow_s) := secp256k1_scalar_set_b32 (hi32 input64)
    if overflow_r || overflow_s then none else some { r := r, s := s, recid := recid }
  else none

/-- Modelled from the spec: `secp256k1_ecdsa_recover`, the "recovery procedure
against the digest": the "recovery id selects which of up to four candidate
points" `R` has `x`-coordinate `r` or `r + n` and which parity of `y`, and the
key is `(1 / r) * (s * R - m * G)`; `none` stands for the return value 0. -/
def secp256k1_ecdsa_recover (sig : secp256k1_ecdsa_recoverable_signature) (msg32 : Buf 32) :
    Option secp256k1_pubkey :=
  if secp256k1_scalar_is_zero sig.r || secp256k1_scalar_is_zero sig.s then none
  else
    let x := sig.r + (if sig.recid / 2 % 2 = 1 then N_ORDER else 0)
    if P_FIELD ≤ x then none
    else
      let y := feSqrt (curveRhs x)
      if y * y % P_FIELD = curveRhs x then
        let y := if y % 2 = sig.recid % 2 then y else (P_FIELD - y) % P_FIELD
        let m := (secp256k1_scalar_set_b32 msg32).1
        let rn := scalarInv sig.r
        let u1 := secp256k1_scalar_negate (secp256k1_scalar_mul rn m)
        let u2 := secp256k1_scalar_mul rn sig.s
        let q := geAdd (geMul u1 secp256k1_ge_const_g)
          (geMul u2 { x := x, y := y, infinity := false })
        if q.infinity then none else some q
      else none

/-! ## ECDSA recovery, ECDSA verification and public key encoding -/

/-- The first 64 bytes of a 65-byte recoverable signature. -/
def sig64 (sigdata : Buf 65) : Buf 64 :=
  ⟨sigdata.1.take 64, by simp [sigdata.2]⟩

/-- The byte `sigdata[64]` of a 65-byte recoverable signature. -/
def recidByte (sigdata : Buf 65) : Byte :=
  sigdata.1.get ⟨64, by rw [sigdata.2]; decide⟩

/-- What a call of the recovery leaves behind: the returned `int`, the content
of `pubkey_out`, and whether `secp256k1_ecdsa_recover` was called. -/
structure RecoverResult where
  ret : Nat
  pubkey_out : List Byte
  recover_called : Bool

/-- The function `secp256k1_ext_ecdsa_recover`; `pubkey_out` is the content of
the output buffer before the call. -/
def secp256k1_ext_ecdsa_recover (pubkey_out : List Byte) (sigdata : Buf 65)
    (msgdata : Buf 32) : RecoverResult :=
  match secp256k1_ecdsa_recoverable_signature_parse_compact (sig64 sigdata)
      (recidByte sigdata).val with
  | none => { ret := 0, pubkey_out := pubkey_out, recover_called := false }
  | some sig =>
    match secp256k1_ecdsa_recover sig msgdata with
    | none => { ret := 0, pubkey_out := pubkey_out, recover_called := true }
    | some pubkey =>
      let outputlen := 65
      let (ret, pubkey_out, _) :=
        secp256k1_ec_pubkey_serialize pubkey_out outputlen pubkey SECP256K1_EC_UNCOMPRESSED
      { ret := ret, pubkey_out := pubkey_out, recover_called := true }

/-- The function `secp256k1_ext_ecdsa_verify`; the length of `pubkeydata` is the
argument `pubkeylen`. -/
def secp256k1_ext_ecdsa_verify (sigdata : Buf 64) (msgdata : Buf 32)
    (pubkeydata : List Byte) : Nat :=
  match secp256k1_ecdsa_signature_parse_compact sigdata with
  | none => 0
  | some sig =>
    match secp256k1_ec_pubkey_parse pubkeydata with
    | none => 0
    | some pubkey => secp256k1_ecdsa_verify sig msgdata pubkey

/-- What a call of the re-encoding leaves behind: the returned `int`, the
content of `out` and the final value of the local copy of `outlen`. -/
structure ReencodeResult where
  ret : Nat
  out : List Byte
  outlen : Nat

/-- The function `secp256k1_ext_reencode_pubkey`; `out` is the content of the
output buffer before the call, its length is the argument `outlen`, and the
length of `pubkeydata` is the argument `pubkeylen`. -/
def secp256k1_ext_reencode_pubkey (out : List Byte) (pubkeydata : List Byte) :
    ReencodeResult :=
  let outlen := out.length
  match secp256k1_ec_pubkey_parse pubkeydata with
  | none => { ret := 0, out := out, outlen := outlen }
  | some pubkey =>
    let flag := if outlen = 33 then SECP256K1_EC_COMPRESSED else SECP256K1_EC_UNCOMPRESSED
    let (ret, out, outlen) := secp256k1_ec_pubkey_serialize out outlen pubkey flag
    { ret := ret, out := out, outlen := outlen }

/-- The curve `y^2 = x^3 + 7` over the integers modulo `p`. -/
def secpCurve : WeierstrassCurve (ZMod P_FIELD) :=
  { a₁ := 0, a₂ := 0, a₃ := 0, a₄ := 0, a₆ := 7 }

/-- The model point `g` stands for the point `Q` of the curve. -/
def Represents (g : secp256k1_ge) (Q : secpCurve.toAffine.Point) : Prop :=
  (g.infinity = true ∧ Q = 0) ∨
  (g.infinity = false ∧
    ∃ h : secpCurve.toAffine.Nonsingular (g.x : ZMod P_FIELD) (g.y : ZMod P_FIELD),
      Q = WeierstrassCurve.Affine.Point.some h)

/-- The big-endian value of a 32-byte scalar buffer is nonzero and below the
curve order. -/
def ValidScalar (s : Buf 32) : Prop :=
  0 < beValue s.1 ∧ beValue s.1 < N_ORDER

instance (s : Buf 32) : Decidable (ValidScalar s) := by
  unfold ValidScalar; infer_instance

/-! ## Big-endian encoding lemmas -/

theorem beValue_append_singleton (l : List Byte) (b : Byte) :
    beValue (l ++ [b]) = beValue l * 256 + b.val := by
  simp [beValue, List.foldl_append]

theorem beValue_lt (l : List Byte) : beValue l < 256 ^ l.length := by
  induction l using List.reverseRecOn with
  | nil => simp [beValue]
  | append_singleton l b ih =>
    rw [beValue_append_singleton, List.length_append, List.length_singleton, pow_succ]
    have hb := b.isLt
    omega

theorem beValue_beBytes (k v : Nat) : beValue (beBytes k v).1 = v % 256 ^ k := by
  induction k generalizing v with
  | zero => simp [beBytes, beValue, Nat.mod_one]
  | succ k ih =>
    rw [beBytes, beValue_append_singleton, ih, pow_succ', Nat.mod_mul]
    simp only []
    ring

theorem beBytes_beValue (l : List Byte) : (beBytes l.length (beValue l)).1 = l := by
  induction l using List.reverseRecOn with
  | nil => rfl
  | append_singleton l b ih =>
    have hb := b.isLt
    have h1 : (beValue l * 256 + b.val) / 256 = beValue l := by omega
    have h2 : (beValue l * 256 + b.val) % 256 = b.val := by omega
    have key : ∀ k, k = l.length →
        (beBytes (k + 1) (beValue l * 256 + b.val)).1 = l ++ [b] := by
      intro k hk
      subst hk
      simp only [beBytes, h1, h2, ih]
    rw [beValue_append_singleton]
    have hl : (l ++ [b]).length = l.length + 1 := by simp
    rw [hl]
    exact key _ rfl

theorem beValue_be32 (v : Nat) : beValue (be32 v).1 = v % 2 ^ 256 := by
  have h : (2 : Nat) ^ 256 = 256 ^ 32 := by norm_num
  rw [h]; exact beValue_beBytes 32 v

theorem be32_beValue (s : Buf 32) : be32 (beValue s.1) = s := by
  apply Subtype.ext
  have h := beBytes_beValue s.1
  have key : ∀ k (hk : s.1.length = k), (beBytes k (beValue s.1)).1 = s.1 := by
    intro k hk
    subst hk
    exact h
  exact key 32 s.2

theorem N_ORDER_lt : N_ORDER < 2 ^ 256 := by decide

theorem N_ORDER_pos : 0 < N_ORDER := by decide

/-! ## Scalar decoding -/

theorem scalar_check_valid (s : Buf 32) (h : ValidScalar s) :
    secp256k1_scalar_set_b32 s = (beValue s.1, false) := by
  obtain ⟨_, h2⟩ := h
  simp [secp256k1_scalar_set_b32, Nat.mod_eq_of_lt h2, h2]

theorem scalar_check_iff (s : Buf 32) :
    ((secp256k1_scalar_set_b32 s).2 ||
      secp256k1_scalar_is_zero (secp256k1_scalar_set_b32 s).1) = false ↔ ValidScalar s := by
  unfold ValidScalar secp256k1_scalar_set_b32 secp256k1_scalar_is_zero
  simp only [Bool.or_eq_false_iff, decide_eq_false_iff_not, not_le]
  constructor
  · rintro ⟨h1, h2⟩
    rw [Nat.mod_eq_of_lt h1] at h2
    exact ⟨Nat.pos_of_ne_zero h2, h1⟩
  · rintro ⟨h1, h2⟩
    rw [Nat.mod_eq_of_lt h2]
    exact ⟨h2, Nat.pos_iff_ne_zero.mp h1⟩

theorem scalar_check_invalid (s : Buf 32) (h : ¬ ValidScalar s) :
    ((secp256k1_scalar_set_b32 s).2 ||
      secp256k1_scalar_is_zero (secp256k1_scalar_set_b32 s).1) = true := by
  rw [← Bool.not_eq_false, scalar_check_iff]
  exact h

theorem sc_mul_valid (out s1 s2 : Buf 32) (h1 : ValidScalar s1) (h2 : ValidScalar s2) :
    secp256k1_ext_sc_mul out s1 s2 =
      { ret := 1, out := be32 (beValue s1.1 * beValue s2.1 % N_ORDER),
        temps := [some (beValue s1.1 * beValue s2.1 % N_ORDER), some 0, some 0] } := by
  have c1 := (scalar_check_iff s1).mpr h1
  have c2 := (scalar_check_iff s2).mpr h2
  rw [scalar_check_valid s1 h1] at c1
  rw [scalar_check_valid s2 h2] at c2
  simp only [secp256k1_ext_sc_mul, scalar_check_valid s1 h1, scalar_check_valid s2 h2] at c1 c2 ⊢
  simp [c1, c2, secp256k1_scalar_mul, secp256k1_scalar_get_b32, secp256k1_scalar_clear]

theorem sc_sub_valid (out s1 s2 : Buf 32) (h1 : ValidScalar s1) (h2 : ValidScalar s2) :
    secp256k1_ext_sc_sub out s1 s2 =
      { ret := 1, out := be32 ((beValue s1.1 + (N_ORDER - beValue s2.1)) % N_ORDER),
        temps := [some ((beValue s1.1 + (N_ORDER - beValue s2.1)) % N_ORDER),
          some 0, some 0, some 0] } := by
  have c1 := (scalar_check_iff s1).mpr h1
  have c2 := (scalar_check_iff s2).mpr h2
  rw [scalar_check_valid s1 h1] at c1
  rw [scalar_check_valid s2 h2] at c2
  have hn : (N_ORDER - beValue s2.1) % N_ORDER = N_ORDER - beValue s2.1 :=
    Nat.mod_eq_of_lt (Nat.sub_lt N_ORDER_pos h2.1)
  simp only [secp256k1_ext_sc_sub, scalar_check_valid s1 h1, scalar_check_valid s2 h2] at c1 c2 ⊢
  simp [c1, c2, secp256k1_scalar_add, secp256k1_scalar_negate, secp256k1_scalar_get_b32,
    secp256k1_scalar_clear, Nat.mod_eq_of_lt h2.2, hn]

theorem sc_add_valid (out s1 s2 : Buf 32) (h1 : ValidScalar s1) (h2 : ValidScalar s2) :
    secp256k1_ext_sc_add out s1 s2 =
      { ret := 1, out := be32 ((beValue s1.1 + beValue s2.1) % N_ORDER),
        temps := [some ((beValue s1.1 + beValue s2.1) % N_ORDER), some 0, some 0] } := by
  have c1 := (scalar_check_iff s1).mpr h1
  have c2 := (scalar_check_iff s2).mpr h2
  rw [scalar_check_valid s1 h1] at c1
  rw [scalar_check_valid s2 h2] at c2
  simp only [secp256k1_ext_sc_add, scalar_check_valid s1 h1, scalar_check_valid s2 h2] at c1 c2 ⊢
  simp [c1, c2, secp256k1_scalar_add, secp256k1_scalar_get_b32, secp256k1_scalar_clear]

theorem sc_mul_invalid (out s1 s2 : Buf 32) (h : ¬ (ValidScalar s1 ∧ ValidScalar s2)) :
    (secp256k1_ext_sc_mul out s1 s2).ret = 0 ∧ (secp256k1_ext_sc_mul out s1 s2).out = out := by
  by_cases h1 : ValidScalar s1
  · have c2 := scalar_check_invalid s2 (fun h2 => h ⟨h1, h2⟩)
    have c1 := (scalar_check_iff s1).mpr h1
    simp [secp256k1_ext_sc_mul, c1, c2]
  · have c1 := scalar_check_invalid s1 h1
    simp [secp256k1_ext_sc_mul, c1]

theorem sc_sub_invalid (out s1 s2 : Buf 32) (h : ¬ (ValidScalar s1 ∧ ValidScalar s2)) :
    (secp256k1_ext_sc_sub out s1 s2).ret = 0 ∧ (secp256k1_ext_sc_sub out s1 s2).out = out := by
  by_cases h1 : ValidScalar s1
  · have c2 := scalar_check_invalid s2 (fun h2 => h ⟨h1, h2⟩)
    have c1 := (scalar_check_iff s1).mpr h1
    simp [secp256k1_ext_sc_sub, c1, c2]
  · have c1 := scalar_check_invalid s1 h1
    simp [secp256k1_ext_sc_sub, c1]

theorem sc_add_invalid (out s1 s2 : Buf 32) (h : ¬ (ValidScalar s1 ∧ ValidScalar s2)) :
    (secp256k1_ext_sc_add out s1 s2).ret = 0 ∧ (secp256k1_ext_sc_add out s1 s2).out = out := by
  by_cases h1 : ValidScalar s1
  · have c2 := scalar_check_invalid s2 (fun h2 => h ⟨h1, h2⟩)
    have c1 := (scalar_check_iff s1).mpr h1
    simp [secp256k1_ext_sc_add, c1, c2]
  · have c1 := scalar_check_invalid s1 h1
    simp [secp256k1_ext_sc_add, c1]

theorem beValue_be32_of_lt (v : Nat) (h : v < N_ORDER) : beValue (be32 v).1 = v := by
  rw [beValue_be32]
  exact Nat.mod_eq_of_lt (lt_trans h N_ORDER_lt)

theorem sub_value_eq (a b : Nat) (ha : a < N_ORDER) (hb : b < N_ORDER) :
    (a + (N_ORDER - b)) % N_ORDER = (((a : Int) - (b : Int)) % (N_ORDER : Int)).toNat := by
  unfold N_ORDER at *
  omega

theorem sub_value_lt (a b : Nat) : (a + (N_ORDER - b)) % N_ORDER < N_ORDER :=
  Nat.mod_lt _ N_ORDER_pos

theorem sub_value_pos (a b : Nat) (ha : a < N_ORDER) (hb0 : 0 < b) (hb : b < N_ORDER)
    (hne : a ≠ b) : 0 < (a + (N_ORDER - b)) % N_ORDER := by
  unfold N_ORDER at *
  omega

theorem sub_add_value (a b : Nat) (ha : a < N_ORDER) (hb : b < N_ORDER) :
    ((a + (N_ORDER - b)) % N_ORDER + b) % N_ORDER = a := by
  unfold N_ORDER at *
  omega

/-! ## Points and their encoding -/

theorem storeHi_storeLo (p : Buf 64) (a b : Buf 32) :
    storeHi (storeLo p a) b = join32 a b := by
  apply Subtype.ext
  simp [storeHi, storeLo, join32, List.take_append_of_le_length, a.2]

theorem P_FIELD_pos : 0 < P_FIELD := by decide

theorem feSub_lt (a b : Nat) : feSub a b < P_FIELD := Nat.mod_lt _ P_FIELD_pos

theorem feSub_mod (a b : Nat) : feSub a b % P_FIELD = feSub a b :=
  Nat.mod_eq_of_lt (feSub_lt a b)

theorem geReduce_geInfinity : geReduce geInfinity = geInfinity := rfl

theorem geReduce_idem (a : secp256k1_ge) : geReduce (geReduce a) = geReduce a := by
  unfold geReduce
  by_cases h : a.infinity = true
  · simp [h, geInfinity]
  · simp [h, Nat.mod_mod]

theorem geDouble_reduced (a : secp256k1_ge) : geReduce (geDouble a) = geDouble a := by
  unfold geDouble
  by_cases h : a.infinity = true
  · simp [h, geReduce_geInfinity]
  · by_cases hy : a.y % P_FIELD = 0
    · simp [h, hy, geReduce_geInfinity]
    · simp [h, hy, geReduce, feSub_mod]

theorem geAdd_reduced (a b : secp256k1_ge) : geReduce (geAdd a b) = geAdd a b := by
  unfold geAdd
  by_cases ha : a.infinity = true
  · simp [ha, geReduce_idem]
  · by_cases hb : b.infinity = true
    · simp [ha, hb, geReduce_idem]
    · by_cases hx : a.x % P_FIELD = b.x % P_FIELD
      · by_cases hy : a.y % P_FIELD = b.y % P_FIELD
        · simp [ha, hb, hx, hy, geDouble_reduced]
        · simp [ha, hb, hx, hy, geReduce_geInfinity]
      · simp [ha, hb, hx, geReduce, feSub_mod]

theorem geMulBits_reduced (bits k : Nat) (a : secp256k1_ge) :
    geReduce (geMulBits bits k a) = geMulBits bits k a := by
  cases bits with
  | zero => rfl
  | succ bits =>
    unfold geMulBits
    by_cases hk : k % 2 = 1
    · simp [hk, geAdd_reduced]
    · simp [hk, geDouble_reduced]

theorem geMul_reduced (k : Nat) (a : secp256k1_ge) : geReduce (geMul k a) = geMul k a :=
  geMulBits_reduced 256 k a

theorem geReduce_coords (a : secp256k1_ge) :
    (geReduce a).x % P_FIELD = (geReduce a).x ∧ (geReduce a).y % P_FIELD = (geReduce a).y := by
  unfold geReduce
  by_cases h : a.infinity = true
  · simp [h, geInfinity]
  · simp [h, Nat.mod_mod]

theorem reduced_coords_lt (a : secp256k1_ge) (h : geReduce a = a) :
    a.x < P_FIELD ∧ a.y < P_FIELD := by
  have hc := geReduce_coords a
  rw [h] at hc
  exact ⟨by rw [← hc.1]; exact Nat.mod_lt _ P_FIELD_pos,
    by rw [← hc.2]; exact Nat.mod_lt _ P_FIELD_pos⟩

/-- What the code writes for a library result `g`: conversion from Jacobian form,
normalization of both coordinates, serialization of each into its half. -/
theorem serialized_eq_encodePoint (g : secp256k1_ge) (h : geReduce g = g) :
    join32 (secp256k1_fe_get_b32 (secp256k1_fe_normalize (secp256k1_ge_set_gej g).x))
      (secp256k1_fe_get_b32 (secp256k1_fe_normalize (secp256k1_ge_set_gej g).y)) =
      encodePoint g := by
  have hc := geReduce_coords g
  rw [h] at hc
  simp only [secp256k1_ge_set_gej, secp256k1_fe_normalize, secp256k1_fe_get_b32, h, hc.1, hc.2,
    encodePoint]

theorem lo32_join32 (a b : Buf 32) : lo32 (join32 a b) = a := by
  apply Subtype.ext
  simp [lo32, join32, List.take_append_of_le_length, a.2]

theorem hi32_join32 (a b : Buf 32) : hi32 (join32 a b) = b := by
  apply Subtype.ext
  simp [hi32, join32, List.drop_append_of_le_length, a.2]

theorem P_FIELD_lt : P_FIELD < 2 ^ 256 := by decide

theorem beValue_be32_of_lt_p (v : Nat) (h : v < P_FIELD) : beValue (be32 v).1 = v := by
  rw [beValue_be32]
  exact Nat.mod_eq_of_lt (lt_trans h P_FIELD_lt)

set_option maxRecDepth 100000 in
theorem geMul_one_g : geMul 1 secp256k1_ge_const_g = secp256k1_ge_const_g := by
  decide

set_option maxRecDepth 100000 in
theorem geMul_two_g : geMul 2 secp256k1_ge_const_g =
    { x := 0xC6047F9441ED7D6D3045406E95C07CD85C778E4B8CEF3CA7ABAC09B95C709EE5
      y := 0x1AE168FEA63DC339A3C58419466CEAEEF7F632653266D0E1236431A950CFE52A
      infinity := false } := by
  decide

/-! ## Primality of the field prime -/

theorem powMod_eq (m : Nat) : ∀ (bits b e : Nat), e < 2 ^ bits → powMod m bits b e = b ^ e % m := by
  intro bits
  induction bits with
  | zero =>
    intro b e he
    have : e = 0 := by simpa using he
    subst this
    simp [powMod]
  | succ bits ih =>
    intro b e he
    unfold powMod
    by_cases h0 : e = 0
    · simp [h0]
    · have he2 : e / 2 < 2 ^ bits := by
        rw [pow_succ] at he
        omega
      have hsq : (b * b % m) ^ (e / 2) % m = (b * b) ^ (e / 2) % m := by
        rw [Nat.pow_mod, Nat.mod_mod, ← Nat.pow_mod]
      simp only [h0, if_false, ih _ _ he2, hsq]
      by_cases h1 : e % 2 = 1
      · simp only [h1, if_true]
        have : b ^ e = b * (b * b) ^ (e / 2) := by
          conv_lhs => rw [← Nat.div_add_mod e 2, h1]
          rw [pow_succ, pow_mul, mul_comm, sq]
        rw [this, Nat.mul_mod, Nat.mod_mod, ← Nat.mul_mod]
      · simp only [h1, if_false]
        have h2 : e % 2 = 0 := by omega
        have : b ^ e = (b * b) ^ (e / 2) := by
          conv_lhs => rw [← Nat.div_add_mod e 2, h2]
          rw [add_zero, pow_mul, sq]
        rw [this]

theorem lucas_cert (q a : Nat) (fe : List (Nat × Nat)) (hq : 1 < q)
    (hfac : (fe.map (fun t => t.1 ^ t.2)).prod = q - 1)
    (hpr : ∀ t ∈ fe, Nat.Prime t.1)
    (hbits : q < 2 ^ 256)
    (h1 : powMod q 256 a (q - 1) = 1)
    (h2 : ∀ t ∈ fe, powMod q 256 a ((q - 1) / t.1) ≠ 1) : Nat.Prime q := by
  have hlt : ∀ e, e ≤ q - 1 → e < 2 ^ 256 := fun e he => by omega
  have hone : 1 % q = 1 := Nat.mod_eq_of_lt hq
  apply lucas_primality q (a : ZMod q)
  · have h := h1
    rw [powMod_eq q 256 a (q - 1) (hlt _ le_rfl)] at h
    have hc : ((a ^ (q - 1) : ℕ) : ZMod q) = ((1 : ℕ) : ZMod q) := by
      rw [ZMod.natCast_eq_natCast_iff']
      rw [h, hone]
    simpa using hc
  · intro r hr hdvd
    rw [← hfac] at hdvd
    obtain ⟨x, hx, hrx⟩ := (Prime.dvd_prod_iff (Nat.prime_iff.mp hr)).mp hdvd
    obtain ⟨t, ht, rfl⟩ := List.mem_map.mp hx
    have hrt : r ∣ t.1 := hr.dvd_of_dvd_pow hrx
    have hreq : r = t.1 := (Nat.prime_dvd_prime_iff_eq hr (hpr t ht)).mp hrt
    subst hreq
    intro hcontra
    apply h2 t ht
    rw [powMod_eq q 256 a _ (hlt _ (Nat.div_le_self _ _))]
    have hc : ((a ^ ((q - 1) / t.1) : ℕ) : ZMod q) = ((1 : ℕ) : ZMod q) := by
      simpa using hcontra
    rw [ZMod.natCast_eq_natCast_iff'] at hc
    rw [hc, hone]

set_option maxRecDepth 100000 in
theorem prime_13441 : Nat.Prime 13441 :=
  lucas_cert 13441 11 [(2, 7), (3, 1), (5, 1), (7, 1)]
    (by decide) (by decide)
    (by
      intro t ht
      simp only [List.mem_cons, List.mem_singleton, List.mem_nil_iff, or_false] at ht
      rcases ht with rfl | rfl | rfl | rfl
      · norm_num
      · norm_num
      · norm_num
      · norm_num)
    (by decide) (by decide) (by decide)

set_option maxRecDepth 100000 in
theorem prime_7723 : Nat.Prime 7723 :=
  lucas_cert 7723 3 [(2, 1), (3, 3), (11, 1), (13, 1)]
    (by decide) (by decide)
    (by
      intro t ht
      simp only [List.mem_cons, List.mem_singleton, List.mem_nil_iff, or_false] at ht
      rcases ht with rfl | rfl | rfl | rfl
      · norm_num
      · norm_num
      · norm_num
      · norm_num)
    (by decide) (by decide) (by decide)

set_option maxRecDepth 100000 in
theorem prime_5323 : Nat.Prime 5323 :=
  lucas_cert 5323 5 [(2, 1), (3, 1), (887, 1)]
    (by decide) (by decide)
    (by
      intro t ht
      simp only [List.mem_cons, List.mem_singleton, List.mem_nil_iff, or_false] at ht
      rcases ht with rfl | rfl | rfl
      · norm_num
      · norm_num
      · norm_num)
    (by decide) (by decide) (by decide)

set_option maxRecDepth 100000 in
theorem prime_2621 : Nat.Prime 2621 :=
  lucas_cert 2621 2 [(2, 2), (5, 1), (131, 1)]
    (by decide) (by decide)
    (by
      intro t ht
      simp only [List.mem_cons, List.mem_singleton, List.mem_nil_iff, or_false] at ht
      rcases ht with rfl | rfl | rfl
      · norm_num
      · norm_num
      · norm_num)
    (by decide) (by decide) (by decide)

set_option maxRecDepth 100000 in
theorem prime_24809 : Nat.Prime 24809 :=
  lucas_cert 24809 6 [(2, 3), (7, 1), (443, 1)]
    (by decide) (by decide)
    (by
      intro t ht
      simp only [List.mem_cons, List.mem_singleton, List.mem_nil_iff, or_false] at ht
      rcases ht with rfl | rfl | rfl
      · norm_num
      · norm_num
      · norm_num)
    (by decide) (by decide) (by decide)

set_option maxRecDepth 100000 in
theorem prime_1373 : Nat.Prime 1373 :=
  lucas_cert 1373 2 [(2, 2), (7, 3)]
    (by decide) (by decide)
    (by
      intro t ht
      simp only [List.mem_cons, List.mem_singleton, List.mem_nil_iff, or_false] at ht
      rcases ht with rfl | rfl
      · norm_num
      · norm_num)
    (by decide) (by decide) (by decide)

set_option maxRecDepth 100000 in
theorem prime_13331831 : Nat.Prime 13331831 :=
  lucas_cert 13331831 13 [(2, 1), (5, 1), (971, 1), (1373, 1)]
    (by decide) (by decide)
    (by
      intro t ht
      simp only [List.mem_cons, List.mem_singleton, List.mem_nil_iff, or_false] at ht
      rcases ht with rfl | rfl | rfl | rfl
      · norm_num
      · norm_num
      · norm_num
      · exact prime_1373)
    (by decide) (by decide) (by decide)

set_option maxRecDepth 100000 in
theorem prime_173378833005251801 : Nat.Prime 173378833005251801 :=
  lucas_cert 173378833005251801 6 [(2, 3), (5, 2), (2621, 1), (24809, 1), (13331831, 1)]
    (by decide) (by decide)
    (by
      intro t ht
      simp only [List.mem_cons, List.mem_singleton, List.mem_nil_iff, or_false] at ht
      rcases ht with rfl | rfl | rfl | rfl | rfl
      · norm_num
      · norm_num
      · exact prime_2621
      · exact prime_24809
      · exact prime_13331831)
    (by decide) (by decide) (by decide)

set_option maxRecDepth 100000 in
theorem prime_22149492674086928081353 : Nat.Prime 22149492674086928081353 :=
  lucas_cert 22149492674086928081353 5 [(2, 3), (3, 1), (5323, 1), (173378833005251801, 1)]
    (by decide) (by decide)
    (by
      intro t ht
      simp only [List.mem_cons, List.mem_singleton, List.mem_nil_iff, or_false] at ht
      rcases ht with rfl | rfl | rfl | rfl
      · norm_num
      · norm_num
      · exact prime_5323
      · exact prime_173378833005251801)
    (by decide) (by decide) (by decide)

set_option maxRecDepth 100000 in
theorem prime_132896956044521568488119 : Nat.Prime 132896956044521568488119 :=
  lucas_cert 132896956044521568488119 6 [(2, 1), (3, 1), (22149492674086928081353, 1)]
    (by decide) (by decide)
    (by
      intro t ht
      simp only [List.mem_cons, List.mem_singleton, List.mem_nil_iff, or_false] at ht
      rcases ht with rfl | rfl | rfl
      · norm_num
      · norm_num
      · exact prime_22149492674086928081353)
    (by decide) (by decide) (by decide)

set_option maxRecDepth 100000 in
theorem prime_1627 : Nat.Prime 1627 :=
  lucas_cert 1627 3 [(2, 1), (3, 1), (271, 1)]
    (by decide) (by decide)
    (by
      intro t ht
      simp only [List.mem_cons, List.mem_singleton, List.mem_nil_iff, or_false] at ht
      rcases ht with rfl | rfl | rfl
      · norm_num
      · norm_num
      · norm_num)
    (by decide) (by decide) (by decide)

set_option maxRecDepth 100000 in
theorem prime_2657 : Nat.Prime 2657 :=
  lucas_cert 2657 3 [(2, 5), (83, 1)]
    (by decide) (by decide)
    (by
      intro t ht
      simp only [List.mem_cons, List.mem_singleton, List.mem_nil_iff, or_false] at ht
      rcases ht with rfl | rfl
      · norm_num
      · norm_num)
    (by decide) (by decide) (by decide)

set_option maxRecDepth 100000 in
theorem prime_4423 : Nat.Prime 4423 :=
  lucas_cert 4423 3 [(2, 1), (3, 1), (11, 1), (67, 1)]
    (by decide) (by decide)
    (by
      intro t ht
      simp only [List.mem_cons, List.mem_singleton, List.mem_nil_iff, or_false] at ht
      rcases ht with rfl | rfl | rfl | rfl
      · norm_num
      · norm_num
      · norm_num
      · norm_num)
    (by decide) (by decide) (by decide)

set_option maxRecDepth 100000 in
theorem prime_41201 : Nat.Prime 41201 :=
  lucas_cert 41201 3 [(2, 4), (5, 2), (103, 1)]
    (by decide) (by decide)
    (by
      intro t ht
      simp only [List.mem_cons, List.mem_singleton, List.mem_nil_iff, or_false] at ht
      rcases ht with rfl | rfl | rfl
      · norm_num
      · norm_num
      · norm_num)
    (by decide) (by decide) (by decide)

set_option maxRecDepth 100000 in
theorem prime_96557 : Nat.Prime 96557 :=
  lucas_cert 96557 2 [(2, 2), (101, 1), (239, 1)]
    (by decide) (by decide)
    (by
      intro t ht
      simp only [List.mem_cons, List.mem_singleton, List.mem_nil_iff, or_false] at ht
      rcases ht with rfl | rfl | rfl
      · norm_num
      · norm_num
      · norm_num)
    (by decide) (by decide) (by decide)

set_option maxRecDepth 100000 in
theorem prime_20113 : Nat.Prime 20113 :=
  lucas_cert 20113 10 [(2, 4), (3, 1), (419, 1)]
    (by decide) (by decide)
    (by
      intro t ht
      simp only [List.mem_cons, List.mem_singleton, List.mem_nil_iff, or_false] at ht
      rcases ht with rfl | rfl | rfl
      · norm_num
      · norm_num
      · norm_num)
    (by decide) (by decide) (by decide)

set_option maxRecDepth 100000 in
theorem prime_1206781 : Nat.Prime 1206781 :=
  lucas_cert 1206781 10 [(2, 2), (3, 1), (5, 1), (20113, 1)]
    (by decide) (by decide)
    (by
      intro t ht
      simp only [List.mem_cons, List.mem_singleton, List.mem_nil_iff, or_false] at ht
      rcases ht with rfl | rfl | rfl | rfl
      · norm_num
      · norm_num
      · norm_num
      · exact prime_20113)
    (by decide) (by decide) (by decide)

set_option maxRecDepth 100000 in
theorem prime_7240687 : Nat.Prime 7240687 :=
  lucas_cert 7240687 3 [(2, 1), (3, 1), (1206781, 1)]
    (by decide) (by decide)
    (by
      intro t ht
      simp only [List.mem_cons, List.mem_singleton, List.mem_nil_iff, or_false] at ht
      rcases ht with rfl | rfl | rfl
      · norm_num
      · norm_num
      · exact prime_1206781)
    (by decide) (by decide) (by decide)

set_option maxRecDepth 100000 in
theorem prime_107590001 : Nat.Prime 107590001 :=
  lucas_cert 107590001 3 [(2, 4), (5, 4), (7, 1), (29, 1), (53, 1)]
    (by decide) (by decide)
    (by
      intro t ht
      simp only [List.mem_cons, List.mem_singleton, List.mem_nil_iff, or_false] at ht
      rcases ht with rfl | rfl | rfl | rfl | rfl
      · norm_num
      · norm_num
      · norm_num
      · norm_num
      · norm_num)
    (by decide) (by decide) (by decide)

set_option maxRecDepth 100000 in
theorem prime_255515944373312847190720520512484175977 : Nat.Prime 255515944373312847190720520512484175977 :=
  lucas_cert 255515944373312847190720520512484175977 3 [(2, 3), (7, 2), (11, 1), (1627, 1), (2657, 1), (4423, 1), (41201, 1), (96557, 1), (7240687, 1), (107590001, 1)]
    (by decide) (by decide)
    (by
      intro t ht
      simp only [List.mem_cons, List.mem_singleton, List.mem_nil_iff, or_false] at ht
      rcases ht with rfl | rfl | rfl | rfl | rfl | rfl | rfl | rfl | rfl | rfl
      · norm_num
      · norm_num
      · norm_num
      · exact prime_1627
      · exact prime_2657
      · exact prime_4423
      · exact prime_41201
      · exact prime_96557
      · exact prime_7240687
      · exact prime_107590001)
    (by decide) (by decide) (by decide)

set_option maxRecDepth 100000 in
theorem prime_205115282021455665897114700593932402728804164701536103180137503955397371 : Nat.Prime 205115282021455665897114700593932402728804164701536103180137503955397371 :=
  lucas_cert 205115282021455665897114700593932402728804164701536103180137503955397371 10 [(2, 1), (3, 1), (5, 1), (29, 2), (31, 1), (7723, 1), (132896956044521568488119, 1), (255515944373312847190720520512484175977, 1)]
    (by decide) (by decide)
    (by
      intro t ht
      simp only [List.mem_cons, List.mem_singleton, List.mem_nil_iff, or_false] at ht
      rcases ht with rfl | rfl | rfl | rfl | rfl | rfl | rfl | rfl
      · norm_num
      · norm_num
      · norm_num
      · norm_num
      · norm_num
      · exact prime_7723
      · exact prime_132896956044521568488119
      · exact prime_255515944373312847190720520512484175977)
    (by decide) (by decide) (by decide)

set_option maxRecDepth 100000 in
theorem prime_115792089237316195423570985008687907853269984665640564039457584007908834671663 : Nat.Prime 115792089237316195423570985008687907853269984665640564039457584007908834671663 :=
  lucas_cert 115792089237316195423570985008687907853269984665640564039457584007908834671663 3 [(2, 1), (3, 1), (7, 1), (13441, 1), (205115282021455665897114700593932402728804164701536103180137503955397371, 1)]
    (by decide) (by decide)
    (by
      intro t ht
      simp only [List.mem_cons, List.mem_singleton, List.mem_nil_iff, or_false] at ht
      rcases ht with rfl | rfl | rfl | rfl | rfl
      · norm_num
      · norm_num
      · norm_num
      · exact prime_13441
      · exact prime_205115282021455665897114700593932402728804164701536103180137503955397371)
    (by decide) (by decide) (by decide)

theorem P_FIELD_prime : Nat.Prime P_FIELD := prime_115792089237316195423570985008687907853269984665640564039457584007908834671663

/-! ## Primality of the group order -/

set_option maxRecDepth 100000 in
theorem prime_16699 : Nat.Prime 16699 :=
  lucas_cert 16699 3 [(2, 1), (3, 1), (11, 2), (23, 1)]
    (by decide) (by decide)
    (by
      intro t ht
      simp only [List.mem_cons, List.mem_singleton, List.mem_nil_iff, or_false] at ht
      rcases ht with rfl | rfl | rfl | rfl
      · norm_num
      · norm_num
      · norm_num
      · norm_num)
    (by decide) (by decide) (by decide)

set_option maxRecDepth 100000 in
theorem prime_2861 : Nat.Prime 2861 :=
  lucas_cert 2861 2 [(2, 2), (5, 1), (11, 1), (13, 1)]
    (by decide) (by decide)
    (by
      intro t ht
      simp only [List.mem_cons, List.mem_singleton, List.mem_nil_iff, or_false] at ht
      rcases ht with rfl | rfl | rfl | rfl
      · norm_num
      · norm_num
      · norm_num
      · norm_num)
    (by decide) (by decide) (by decide)

set_option maxRecDepth 100000 in
theorem prime_85831 : Nat.Prime 85831 :=
  lucas_cert 85831 3 [(2, 1), (3, 1), (5, 1), (2861, 1)]
    (by decide) (by decide)
    (by
      intro t ht
      simp only [List.mem_cons, List.mem_singleton, List.mem_nil_iff, or_false] at ht
      rcases ht with rfl | rfl | rfl | rfl
      · norm_num
      · norm_num
      · norm_num
      · exact prime_2861)
    (by decide) (by decide) (by decide)

set_option maxRecDepth 100000 in
theorem prime_2011 : Nat.Prime 2011 :=
  lucas_cert 2011 3 [(2, 1), (3, 1), (5, 1), (67, 1)]
    (by decide) (by decide)
    (by
      intro t ht
      simp only [List.mem_cons, List.mem_singleton, List.mem_nil_iff, or_false] at ht
      rcases ht with rfl | rfl | rfl | rfl
      · norm_num
      · norm_num
      · norm_num
      · norm_num)
    (by decide) (by decide) (by decide)

set_option maxRecDepth 100000 in
theorem prime_4681609 : Nat.Prime 4681609 :=
  lucas_cert 4681609 23 [(2, 3), (3, 1), (97, 1), (2011, 1)]
    (by decide) (by decide)
    (by
      intro t ht
      simp only [List.mem_cons, List.mem_singleton, List.mem_nil_iff, or_false] at ht
      rcases ht with rfl | rfl | rfl | rfl
      · norm_num
      · norm_num
      · norm_num
      · exact prime_2011)
    (by decide) (by decide) (by decide)

set_option maxRecDepth 100000 in
theorem prime_107361793816595537 : Nat.Prime 107361793816595537 :=
  lucas_cert 107361793816595537 3 [(2, 4), (16699, 1), (85831, 1), (4681609, 1)]
    (by decide) (by decide)
    (by
      intro t ht
      simp only [List.mem_cons, List.mem_singleton, List.mem_nil_iff, or_false] at ht
      rcases ht with rfl | rfl | rfl | rfl
      · norm_num
      · exact prime_16699
      · exact prime_85831
      · exact prime_4681609)
    (by decide) (by decide) (by decide)

set_option maxRecDepth 100000 in
theorem prime_4051 : Nat.Prime 4051 :=
  lucas_cert 4051 10 [(2, 1), (3, 4), (5, 2)]
    (by decide) (by decide)
    (by
      intro t ht
      simp only [List.mem_cons, List.mem_singleton, List.mem_nil_iff, or_false] at ht
      rcases ht with rfl | rfl | rfl
      · norm_num
      · norm_num
      · norm_num)
    (by decide) (by decide) (by decide)

set_option maxRecDepth 100000 in
theorem prime_120233 : Nat.Prime 120233 :=
  lucas_cert 120233 3 [(2, 3), (7, 1), (19, 1), (113, 1)]
    (by decide) (by decide)
    (by
      intro t ht
      simp only [List.mem_cons, List.mem_singleton, List.mem_nil_iff, or_false] at ht
      rcases ht with rfl | rfl | rfl | rfl
      · norm_num
      · norm_num
      · norm_num
      · norm_num)
    (by decide) (by decide) (by decide)

set_option maxRecDepth 100000 in
theorem prime_9349 : Nat.Prime 9349 :=
  lucas_cert 9349 2 [(2, 2), (3, 1), (19, 1), (41, 1)]
    (by decide) (by decide)
    (by
      intro t ht
      simp only [List.mem_cons, List.mem_singleton, List.mem_nil_iff, or_false] at ht
      rcases ht with rfl | rfl | rfl | rfl
      · norm_num
      · norm_num
      · norm_num
      · norm_num)
    (by decide) (by decide) (by decide)

set_option maxRecDepth 100000 in
theorem prime_44706919 : Nat.Prime 44706919 :=
  lucas_cert 44706919 6 [(2, 1), (3, 1), (797, 1), (9349, 1)]
    (by decide) (by decide)
    (by
      intro t ht
      simp only [List.mem_cons, List.mem_singleton, List.mem_nil_iff, or_false] at ht
      rcases ht with rfl | rfl | rfl | rfl
      · norm_num
      · norm_num
      · norm_num
      · exact prime_9349)
    (by decide) (by decide) (by decide)

set_option maxRecDepth 100000 in
theorem prime_174723607534414371449 : Nat.Prime 174723607534414371449 :=
  lucas_cert 174723607534414371449 3 [(2, 3), (17, 1), (59, 1), (4051, 1), (120233, 1), (44706919, 1)]
    (by decide) (by decide)
    (by
      intro t ht
      simp only [List.mem_cons, List.mem_singleton, List.mem_nil_iff, or_false] at ht
      rcases ht with rfl | rfl | rfl | rfl | rfl | rfl
      · norm_num
      · norm_num
      · norm_num
      · exact prime_4051
      · exact prime_120233
      · exact prime_44706919)
    (by decide) (by decide) (by decide)

set_option maxRecDepth 100000 in
theorem prime_2731 : Nat.Prime 2731 :=
  lucas_cert 2731 3 [(2, 1), (3, 1), (5, 1), (7, 1), (13, 1)]
    (by decide) (by decide)
    (by
      intro t ht
      simp only [List.mem_cons, List.mem_singleton, List.mem_nil_iff, or_false] at ht
      rcases ht with rfl | rfl | rfl | rfl | rfl
      · norm_num
      · norm_num
      · norm_num
      · norm_num
      · norm_num)
    (by decide) (by decide) (by decide)

set_option maxRecDepth 100000 in
theorem prime_305873 : Nat.Prime 305873 :=
  lucas_cert 305873 3 [(2, 4), (7, 1), (2731, 1)]
    (by decide) (by decide)
    (by
      intro t ht
      simp only [List.mem_cons, List.mem_singleton, List.mem_nil_iff, or_false] at ht
      rcases ht with rfl | rfl | rfl
      · norm_num
      · norm_num
      · exact prime_2731)
    (by decide) (by decide) (by decide)

set_option maxRecDepth 100000 in
theorem prime_1409 : Nat.Prime 1409 :=
  lucas_cert 1409 3 [(2, 7), (11, 1)]
    (by decide) (by decide)
    (by
      intro t ht
      simp only [List.mem_cons, List.mem_singleton, List.mem_nil_iff, or_false] at ht
      rcases ht with rfl | rfl
      · norm_num
      · norm_num)
    (by decide) (by decide) (by decide)

set_option maxRecDepth 100000 in
theorem prime_28181 : Nat.Prime 28181 :=
  lucas_cert 28181 2 [(2, 2), (5, 1), (1409, 1)]
    (by decide) (by decide)
    (by
      intro t ht
      simp only [List.mem_cons, List.mem_singleton, List.mem_nil_iff, or_false] at ht
      rcases ht with rfl | rfl | rfl
      · norm_num
      · norm_num
      · exact prime_1409)
    (by decide) (by decide) (by decide)

set_option maxRecDepth 100000 in
theorem prime_545358713 : Nat.Prime 545358713 :=
  lucas_cert 545358713 5 [(2, 3), (41, 1), (59, 1), (28181, 1)]
    (by decide) (by decide)
    (by
      intro t ht
      simp only [List.mem_cons, List.mem_singleton, List.mem_nil_iff, or_false] at ht
      rcases ht with rfl | rfl | rfl | rfl
      · norm_num
      · norm_num
      · norm_num
      · exact prime_28181)
    (by decide) (by decide) (by decide)

set_option maxRecDepth 100000 in
theorem prime_1871 : Nat.Prime 1871 :=
  lucas_cert 1871 14 [(2, 1), (5, 1), (11, 1), (17, 1)]
    (by decide) (by decide)
    (by
      intro t ht
      simp only [List.mem_cons, List.mem_singleton, List.mem_nil_iff, or_false] at ht
      rcases ht with rfl | rfl | rfl | rfl
      · norm_num
      · norm_num
      · norm_num
      · norm_num)
    (by decide) (by decide) (by decide)

set_option maxRecDepth 100000 in
theorem prime_1627771 : Nat.Prime 1627771 :=
  lucas_cert 1627771 3 [(2, 1), (3, 1), (5, 1), (29, 1), (1871, 1)]
    (by decide) (by decide)
    (by
      intro t ht
      simp only [List.mem_cons, List.mem_singleton, List.mem_nil_iff, or_false] at ht
      rcases ht with rfl | rfl | rfl | rfl | rfl
      · norm_num
      · norm_num
      · norm_num
      · norm_num
      · exact prime_1871)
    (by decide) (by decide) (by decide)

set_option maxRecDepth 100000 in
theorem prime_297159362677 : Nat.Prime 297159362677 :=
  lucas_cert 297159362677 2 [(2, 2), (3, 2), (11, 1), (461, 1), (1627771, 1)]
    (by decide) (by decide)
    (by
      intro t ht
      simp only [List.mem_cons, List.mem_singleton, List.mem_nil_iff, or_false] at ht
      rcases ht with rfl | rfl | rfl | rfl | rfl
      · norm_num
      · norm_num
      · norm_num
      · norm_num
      · exact prime_1627771)
    (by decide) (by decide) (by decide)

set_option maxRecDepth 100000 in
theorem prime_29047611873442575647497758179 : Nat.Prime 29047611873442575647497758179 :=
  lucas_cert 29047611873442575647497758179 2 [(2, 1), (293, 1), (305873, 1), (545358713, 1), (297159362677, 1)]
    (by decide) (by decide)
    (by
      intro t ht
      simp only [List.mem_cons, List.mem_singleton, List.mem_nil_iff, or_false] at ht
      rcases ht with rfl | rfl | rfl | rfl | rfl
      · norm_num
      · norm_num
      · exact prime_305873
      · exact prime_545358713
      · exact prime_297159362677)
    (by decide) (by decide) (by decide)

set_option maxRecDepth 100000 in
theorem prime_341948486974166000522343609283189 : Nat.Prime 341948486974166000522343609283189 :=
  lucas_cert 341948486974166000522343609283189 2 [(2, 2), (3, 3), (109, 1), (29047611873442575647497758179, 1)]
    (by decide) (by decide)
    (by
      intro t ht
      simp only [List.mem_cons, List.mem_singleton, List.mem_nil_iff, or_false] at ht
      rcases ht with rfl | rfl | rfl | rfl
      · norm_num
      · norm_num
      · norm_num
      · exact prime_29047611873442575647497758179)
    (by decide) (by decide) (by decide)

set_option maxRecDepth 100000 in
theorem prime_115792089237316195423570985008687907852837564279074904382605163141518161494337 : Nat.Prime 115792089237316195423570985008687907852837564279074904382605163141518161494337 :=
  lucas_cert 115792089237316195423570985008687907852837564279074904382605163141518161494337 7 [(2, 6), (3, 1), (149, 1), (631, 1), (107361793816595537, 1), (174723607534414371449, 1), (341948486974166000522343609283189, 1)]
    (by decide) (by decide)
    (by
      intro t ht
      simp only [List.mem_cons, List.mem_singleton, List.mem_nil_iff, or_false] at ht
      rcases ht with rfl | rfl | rfl | rfl | rfl | rfl | rfl
      · norm_num
      · norm_num
      · norm_num
      · norm_num
      · exact prime_107361793816595537
      · exact prime_174723607534414371449
      · exact prime_341948486974166000522343609283189)
    (by decide) (by decide) (by decide)

theorem N_ORDER_prime : Nat.Prime N_ORDER := prime_115792089237316195423570985008687907852837564279074904382605163141518161494337

/-! ## Field arithmetic in `ZMod p` -/

theorem cast_mod_p (x : Nat) : ((x % P_FIELD : Nat) : ZMod P_FIELD) = (x : ZMod P_FIELD) :=
  ZMod.natCast_mod x P_FIELD

theorem cast_feMul (a b : Nat) :
    ((feMul a b : Nat) : ZMod P_FIELD) = (a : ZMod P_FIELD) * (b : ZMod P_FIELD) := by
  simp [feMul, ZMod.natCast_mod]

theorem cast_feSub (a b : Nat) :
    ((feSub a b : Nat) : ZMod P_FIELD) = (a : ZMod P_FIELD) - (b : ZMod P_FIELD) := by
  have hle : b % P_FIELD ≤ P_FIELD := le_of_lt (Nat.mod_lt _ P_FIELD_pos)
  simp [feSub, ZMod.natCast_mod, Nat.cast_sub hle, sub_eq_add_neg]

theorem cast_feInv (a : Nat) :
    ((feInv a : Nat) : ZMod P_FIELD) = (a : ZMod P_FIELD)⁻¹ := by
  haveI : Fact (Nat.Prime P_FIELD) := ⟨P_FIELD_prime⟩
  have hb : P_FIELD - 2 < 2 ^ 256 := lt_of_le_of_lt (Nat.sub_le _ _) P_FIELD_lt
  have hpow : ((feInv a : Nat) : ZMod P_FIELD) = (a : ZMod P_FIELD) ^ (P_FIELD - 2) := by
    simp [feInv, powMod_eq P_FIELD 256 _ _ hb, ZMod.natCast_mod]
  rw [hpow]
  by_cases h0 : (a : ZMod P_FIELD) = 0
  · rw [h0, inv_zero]
    exact zero_pow (by decide)
  · apply eq_inv_of_mul_eq_one_left
    rw [← pow_succ]
    have h2 : P_FIELD - 2 + 1 = P_FIELD - 1 := by decide
    rw [h2]
    exact ZMod.pow_card_sub_one_eq_one h0

theorem cast_inj_p (x y : Nat) (hx : x < P_FIELD) (hy : y < P_FIELD)
    (h : (x : ZMod P_FIELD) = (y : ZMod P_FIELD)) : x = y := by
  rw [ZMod.natCast_eq_natCast_iff', Nat.mod_eq_of_lt hx, Nat.mod_eq_of_lt hy] at h
  exact h

theorem cast_ne_of_mod_ne (x y : Nat) (h : ¬ x % P_FIELD = y % P_FIELD) :
    (x : ZMod P_FIELD) ≠ (y : ZMod P_FIELD) := by
  intro hc
  rw [ZMod.natCast_eq_natCast_iff'] at hc
  exact h hc

theorem geDouble_congr (a b : secp256k1_ge) (hi : a.infinity = b.infinity)
    (hx : a.x % P_FIELD = b.x % P_FIELD) (hy : a.y % P_FIELD = b.y % P_FIELD) :
    geDouble a = geDouble b := by
  unfold geDouble
  rw [hi, hx, hy]

/-- The chord-and-tangent sum does not depend on the order of the two points. -/
theorem geAdd_comm (a b : secp256k1_ge) : geAdd a b = geAdd b a := by
  haveI : Fact (Nat.Prime P_FIELD) := ⟨P_FIELD_prime⟩
  unfold geAdd
  by_cases ha : a.infinity = true
  · by_cases hb : b.infinity = true
    · simp [ha, hb, geReduce]
    · simp [ha, hb]
  · by_cases hb : b.infinity = true
    · simp [ha, hb]
    · by_cases hx : a.x % P_FIELD = b.x % P_FIELD
      · by_cases hy : a.y % P_FIELD = b.y % P_FIELD
        · have hd := geDouble_congr a b (by simp [ha, hb]) hx hy
          simp [ha, hb, hx, hy, hd]
        · have hy' : ¬ b.y % P_FIELD = a.y % P_FIELD := fun h => hy h.symm
          simp [ha, hb, hx, hy, hy']
      · have hx' : ¬ b.x % P_FIELD = a.x % P_FIELD := fun h => hx h.symm
        have hne := cast_ne_of_mod_ne _ _ hx
        have h1 : (b.x : ZMod P_FIELD) - (a.x : ZMod P_FIELD) ≠ 0 :=
          sub_ne_zero.mpr (Ne.symm hne)
        have h2 : (a.x : ZMod P_FIELD) - (b.x : ZMod P_FIELD) ≠ 0 := sub_ne_zero.mpr hne
        simp only [ha, hb, hx, hx', if_false, Bool.false_eq_true]
        rw [secp256k1_ge.mk.injEq]
        refine ⟨?_, ?_, rfl⟩
        · apply cast_inj_p _ _ (feSub_lt _ _) (feSub_lt _ _)
          simp only [cast_feSub, cast_feMul, cast_feInv, cast_mod_p]
          field_simp
          ring
        · apply cast_inj_p _ _ (feSub_lt _ _) (feSub_lt _ _)
          simp only [cast_feSub, cast_feMul, cast_feInv, cast_mod_p]
          field_simp
          ring

/-! ## The model group and the group of the curve -/

theorem some_congr {x y x' y' : ZMod P_FIELD} (h : secpCurve.toAffine.Nonsingular x y)
    (hx : x = x') (hy : y = y') :
    ∃ h' : secpCurve.toAffine.Nonsingular x' y',
      WeierstrassCurve.Affine.Point.some h = WeierstrassCurve.Affine.Point.some h' := by
  subst hx hy
  exact ⟨h, rfl⟩

theorem rep_infinity_iff (g : secp256k1_ge) (Q : secpCurve.toAffine.Point)
    (h : Represents g Q) : g.infinity = true ↔ Q = 0 := by
  rcases h with ⟨hi, hq⟩ | ⟨hi, hn, hq⟩
  · simp [hi, hq]
  · simp only [hi, hq, Bool.false_eq_true, false_iff]
    exact WeierstrassCurve.Affine.Point.some_ne_zero hn

theorem rep_geReduce (g : secp256k1_ge) (Q : secpCurve.toAffine.Point)
    (h : Represents g Q) : Represents (geReduce g) Q := by
  rcases h with ⟨hi, hq⟩ | ⟨hi, hn, hq⟩
  · left
    simp [geReduce, hi, geInfinity, hq]
  · right
    obtain ⟨h', e⟩ := some_congr hn (cast_mod_p g.x).symm (cast_mod_p g.y).symm
    refine ⟨by simp [geReduce, hi], ?_⟩
    simp only [geReduce, hi, Bool.false_eq_true, if_false]
    exact ⟨h', hq.trans e⟩

theorem two_ne_zero_p : (2 : ZMod P_FIELD) ≠ 0 := by
  intro h
  have h2 : ((2 : Nat) : ZMod P_FIELD) = 0 := by exact_mod_cast h
  rw [ZMod.natCast_zmod_eq_zero_iff_dvd] at h2
  exact absurd h2 (by decide)

theorem cast_ne_zero_of_mod_ne (x : Nat) (h : ¬ x % P_FIELD = 0) : (x : ZMod P_FIELD) ≠ 0 := by
  intro hc
  rw [ZMod.natCast_zmod_eq_zero_iff_dvd] at hc
  exact h (Nat.mod_eq_zero_of_dvd hc)

theorem cast_eq_of_mod_eq (x y : Nat) (h : x % P_FIELD = y % P_FIELD) :
    (x : ZMod P_FIELD) = (y : ZMod P_FIELD) := by
  rw [ZMod.natCast_eq_natCast_iff']
  exact h

theorem rep_geDouble [Fact (Nat.Prime P_FIELD)] (g : secp256k1_ge)
    (Q : secpCurve.toAffine.Point) (h : Represents g Q) : Represents (geDouble g) (Q + Q) := by
  rcases h with ⟨hi, hq⟩ | ⟨hi, hn, hq⟩
  · left
    subst hq
    simp [geDouble, hi, geInfinity]
  · subst hq
    by_cases hy : g.y % P_FIELD = 0
    · left
      have hy0 : (g.y : ZMod P_FIELD) = 0 := by
        rw [ZMod.natCast_zmod_eq_zero_iff_dvd]
        exact Nat.dvd_of_mod_eq_zero hy
      refine ⟨by simp [geDouble, hi, hy, geInfinity], ?_⟩
      apply WeierstrassCurve.Affine.Point.add_self_of_Y_eq
      simp [secpCurve, hy0]
    · right
      have hy0 := cast_ne_zero_of_mod_ne _ hy
      have h2 := two_ne_zero_p
      have hne : (g.y : ZMod P_FIELD) ≠ secpCurve.toAffine.negY (g.x : ZMod P_FIELD) (g.y : ZMod P_FIELD) := by
        simp only [WeierstrassCurve.Affine.negY, secpCurve, WeierstrassCurve.toAffine, zero_mul, sub_zero]
        intro hc
        have : (2 : ZMod P_FIELD) * (g.y : ZMod P_FIELD) = 0 := by linear_combination hc
        rcases mul_eq_zero.mp this with h | h
        · exact h2 h
        · exact hy0 h
      have hs : secpCurve.toAffine.slope (g.x : ZMod P_FIELD) (g.x : ZMod P_FIELD)
          (g.y : ZMod P_FIELD) (g.y : ZMod P_FIELD) =
          3 * (g.x : ZMod P_FIELD) ^ 2 / (2 * (g.y : ZMod P_FIELD)) := by
        rw [WeierstrassCurve.Affine.slope_of_Y_ne rfl hne]
        simp only [WeierstrassCurve.Affine.negY, secpCurve, WeierstrassCurve.toAffine]
        congr 1 <;> ring
      refine ⟨by simp [geDouble, hi, hy], ?_⟩
      rw [WeierstrassCurve.Affine.Point.add_self_of_Y_ne hne]
      simp only [geDouble, hi, hy, Bool.false_eq_true, if_false]
      apply some_congr
      · simp only [WeierstrassCurve.Affine.addX, hs]
        simp only [cast_feSub, cast_feMul, cast_feInv, cast_mod_p, secpCurve,
          WeierstrassCurve.toAffine]
        push_cast
        field_simp
        ring
      · simp only [WeierstrassCurve.Affine.addX, WeierstrassCurve.Affine.addY,
          WeierstrassCurve.Affine.negAddY, WeierstrassCurve.Affine.negY, hs]
        simp only [cast_feSub, cast_feMul, cast_feInv, cast_mod_p, secpCurve,
          WeierstrassCurve.toAffine]
        push_cast
        field_simp
        ring

theorem rep_geAdd [Fact (Nat.Prime P_FIELD)] (a b : secp256k1_ge)
    (A B : secpCurve.toAffine.Point) (ha : Represents a A) (hb : Represents b B) :
    Represents (geAdd a b) (A + B) := by
  rcases ha with ⟨hai, hA⟩ | ⟨hai, hna, hA⟩
  · subst hA
    have hr := rep_geReduce b B hb
    simpa [geAdd, hai] using hr
  · rcases hb with ⟨hbi, hB⟩ | ⟨hbi, hnb, hB⟩
    · subst hB
      have hr := rep_geReduce a A (Or.inr ⟨hai, hna, hA⟩)
      simpa [geAdd, hai, hbi] using hr
    · subst hA hB
      by_cases hx : a.x % P_FIELD = b.x % P_FIELD
      · have hxc := cast_eq_of_mod_eq _ _ hx
        by_cases hy : a.y % P_FIELD = b.y % P_FIELD
        · have hyc := cast_eq_of_mod_eq _ _ hy
          obtain ⟨h', e⟩ := some_congr hna hxc hyc
          have hd := rep_geDouble a _ (Or.inr ⟨hai, hna, rfl⟩)
          have hab : WeierstrassCurve.Affine.Point.some hnb =
              WeierstrassCurve.Affine.Point.some hna := e.symm
          rw [hab]
          simpa [geAdd, hai, hbi, hx, hy] using hd
        · have hyne := cast_ne_of_mod_ne _ _ hy
          rcases WeierstrassCurve.Affine.Y_eq_of_X_eq hna.1 hnb.1 hxc with h | h
          · exact absurd h hyne
          · left
            exact ⟨by simp [geAdd, hai, hbi, hx, hy, geInfinity],
              WeierstrassCurve.Affine.Point.add_of_Y_eq hxc h⟩
      · have hxne := cast_ne_of_mod_ne _ _ hx
        have h1 : (b.x : ZMod P_FIELD) - (a.x : ZMod P_FIELD) ≠ 0 :=
          sub_ne_zero.mpr (Ne.symm hxne)
        have h2 : (a.x : ZMod P_FIELD) - (b.x : ZMod P_FIELD) ≠ 0 := sub_ne_zero.mpr hxne
        right
        refine ⟨by simp [geAdd, hai, hbi, hx], ?_⟩
        rw [WeierstrassCurve.Affine.Point.add_of_X_ne hxne]
        simp only [geAdd, hai, hbi, hx, Bool.false_eq_true, if_false]
        apply some_congr
        · simp only [WeierstrassCurve.Affine.addX, WeierstrassCurve.Affine.slope_of_X_ne hxne]
          simp only [cast_feSub, cast_feMul, cast_feInv, cast_mod_p, secpCurve,
            WeierstrassCurve.toAffine]
          field_simp
          ring
        · simp only [WeierstrassCurve.Affine.addX, WeierstrassCurve.Affine.addY,
            WeierstrassCurve.Affine.negAddY, WeierstrassCurve.Affine.negY,
            WeierstrassCurve.Affine.slope_of_X_ne hxne]
          simp only [cast_feSub, cast_feMul, cast_feInv, cast_mod_p, secpCurve,
            WeierstrassCurve.toAffine]
          field_simp
          ring

theorem rep_geMulBits [Fact (Nat.Prime P_FIELD)] (a : secp256k1_ge)
    (A : secpCurve.toAffine.Point) (ha : Represents a A) :
    ∀ bits k : Nat, Represents (geMulBits bits k a) ((k % 2 ^ bits) • A) := by
  intro bits
  induction bits with
  | zero =>
    intro k
    left
    exact ⟨rfl, by rw [pow_zero, Nat.mod_one, zero_nsmul]⟩
  | succ bits ih =>
    intro k
    have hd := rep_geDouble _ _ (ih (k / 2))
    have hk : k % 2 ^ (bits + 1) = k / 2 % 2 ^ bits + k / 2 % 2 ^ bits + k % 2 := by
      rw [pow_succ', Nat.mod_mul]
      ring
    unfold geMulBits
    by_cases h1 : k % 2 = 1
    · have hs := rep_geAdd _ _ _ _ hd ha
      simp only [h1, if_true]
      rw [hk, h1, add_smul, add_smul, one_smul]
      exact hs
    · have h0 : k % 2 = 0 := by omega
      simp only [h1, if_false]
      rw [hk, h0, add_zero, add_smul]
      exact hd

theorem rep_geMul [Fact (Nat.Prime P_FIELD)] (a : secp256k1_ge)
    (A : secpCurve.toAffine.Point) (ha : Represents a A) (k : Nat) (hk : k < 2 ^ 256) :
    Represents (geMul k a) (k • A) := by
  have h := rep_geMulBits a A ha 256 k
  rw [Nat.mod_eq_of_lt hk] at h
  exact h

theorem secpCurve_disc_ne_zero : secpCurve.Δ ≠ 0 := by
  have h : secpCurve.Δ = -((21168 : Nat) : ZMod P_FIELD) := by
    simp only [WeierstrassCurve.Δ, WeierstrassCurve.b₂, WeierstrassCurve.b₄,
      WeierstrassCurve.b₆, WeierstrassCurve.b₈, secpCurve]
    push_cast
    ring
  rw [h, neg_ne_zero]
  intro hc
  rw [ZMod.natCast_zmod_eq_zero_iff_dvd] at hc
  exact absurd hc (by decide)

theorem rep_of_equation (x y : Nat)
    (h : y * y % P_FIELD = (x * x * x + 7) % P_FIELD) :
    ∃ Q, Represents { x := x, y := y, infinity := false } Q := by
  have hc := cast_eq_of_mod_eq _ _ h
  have he : secpCurve.toAffine.Equation (x : ZMod P_FIELD) (y : ZMod P_FIELD) := by
    rw [WeierstrassCurve.Affine.equation_iff]
    simp only [secpCurve, WeierstrassCurve.toAffine]
    push_cast at hc
    linear_combination hc
  have hn := WeierstrassCurve.Affine.nonsingular_of_Δ_ne_zero secpCurve.toAffine he secpCurve_disc_ne_zero
  exact ⟨_, Or.inr ⟨rfl, hn, rfl⟩⟩

theorem geMul_order_g : geMul N_ORDER secp256k1_ge_const_g = geInfinity := by
  decide!

/-- Every multiple `k * G` with `0 < k < n` is a finite point. -/
theorem geMul_g_finite (k : Nat) (h0 : 0 < k) (hk : k < N_ORDER) :
    (geMul k secp256k1_ge_const_g).infinity = false := by
  haveI : Fact (Nat.Prime P_FIELD) := ⟨P_FIELD_prime⟩
  haveI : Fact (Nat.Prime N_ORDER) := ⟨N_ORDER_prime⟩
  obtain ⟨Q, hQ⟩ := rep_of_equation secp256k1_ge_const_g.x secp256k1_ge_const_g.y (by decide)
  have hG : Represents secp256k1_ge_const_g Q := hQ
  have hQ0 : Q ≠ 0 := fun hc => absurd ((rep_infinity_iff _ _ hG).mpr hc) (by decide)
  have hn := rep_geMul _ _ hG N_ORDER N_ORDER_lt
  rw [geMul_order_g] at hn
  have hnQ : N_ORDER • Q = 0 := (rep_infinity_iff _ _ hn).mp rfl
  have hord : addOrderOf Q = N_ORDER := addOrderOf_eq_prime hnQ hQ0
  have hkr := rep_geMul _ _ hG k (lt_trans hk N_ORDER_lt)
  by_contra hinf
  have hinf' : (geMul k secp256k1_ge_const_g).infinity = true := by
    simpa using hinf
  have hkQ : k • Q = 0 := (rep_infinity_iff _ _ hkr).mp hinf'
  have hdvd : N_ORDER ∣ k := hord ▸ addOrderOf_dvd_of_nsmul_eq_zero hkQ
  exact absurd (Nat.le_of_dvd h0 hdvd) (not_le.mpr hk)

theorem rep_equation (g : secp256k1_ge) (Q : secpCurve.toAffine.Point)
    (h : Represents g Q) (hfin : g.infinity = false) :
    g.y * g.y % P_FIELD = (g.x * g.x * g.x + 7) % P_FIELD := by
  rcases h with ⟨hi, _⟩ | ⟨_, hn, _⟩
  · rw [hi] at hfin
    exact absurd hfin (by decide)
  · have he := hn.1
    rw [WeierstrassCurve.Affine.equation_iff] at he
    simp only [secpCurve, WeierstrassCurve.toAffine] at he
    rw [← ZMod.natCast_eq_natCast_iff']
    push_cast
    linear_combination he

/-- Every multiple `k * G` with `0 < k < n` lies on the curve `y^2 = x^3 + 7`. -/
theorem geMul_g_equation (k : Nat) (h0 : 0 < k) (hk : k < N_ORDER) :
    (geMul k secp256k1_ge_const_g).y * (geMul k secp256k1_ge_const_g).y % P_FIELD =
      ((geMul k secp256k1_ge_const_g).x * (geMul k secp256k1_ge_const_g).x *
        (geMul k secp256k1_ge_const_g).x + 7) % P_FIELD := by
  haveI : Fact (Nat.Prime P_FIELD) := ⟨P_FIELD_prime⟩
  obtain ⟨Q, hQ⟩ := rep_of_equation secp256k1_ge_const_g.x secp256k1_ge_const_g.y (by decide)
  have hG : Represents secp256k1_ge_const_g Q := hQ
  exact rep_equation _ _ (rep_geMul _ _ hG k (lt_trans hk N_ORDER_lt))
    (geMul_g_finite k h0 hk)

/-! ## Equations of the point operations -/

theorem scalar_mul_invalid (point : Buf 64) (scalar : Buf 32) (h : ¬ ValidScalar scalar) :
    secp256k1_ext_scalar_mul point scalar = { ret := 0, out := point, temps := [some 0] } := by
  have c := scalar_check_invalid scalar h
  simp [secp256k1_ext_scalar_mul, c, secp256k1_scalar_clear]

theorem scalar_mul_valid (point : Buf 64) (scalar : Buf 32) (h : ValidScalar scalar) :
    secp256k1_ext_scalar_mul point scalar =
      { ret := 1, out := encodePoint (geMul (beValue scalar.1) (pointOf point)),
        temps := [some 0] } := by
  have c := (scalar_check_iff scalar).mpr h
  have e := serialized_eq_encodePoint _ (geMul_reduced (beValue scalar.1) (pointOf point))
  rw [scalar_check_valid scalar h] at c
  simp only [secp256k1_ext_scalar_mul, scalar_check_valid scalar h] at c ⊢
  simp only [pointOf] at e
  simp [c, secp256k1_scalar_clear, storeHi_storeLo, secp256k1_ecmult_const, pointOf, e]

theorem scalar_mul_bytes_invalid (out point : Buf 64) (scalar : Buf 32)
    (h : ¬ ValidScalar scalar) :
    secp256k1_ext_scalar_mul_bytes out point scalar =
      { ret := 0, out := out, temps := [some 0] } := by
  have c := scalar_check_invalid scalar h
  simp [secp256k1_ext_scalar_mul_bytes, c, secp256k1_scalar_clear]

theorem scalar_mul_bytes_valid (out point : Buf 64) (scalar : Buf 32) (h : ValidScalar scalar) :
    secp256k1_ext_scalar_mul_bytes out point scalar =
      { ret := 1, out := encodePoint (geMul (beValue scalar.1) (pointOf point)),
        temps := [some 0] } := by
  have c := (scalar_check_iff scalar).mpr h
  have e := serialized_eq_encodePoint _ (geMul_reduced (beValue scalar.1) (pointOf point))
  rw [scalar_check_valid scalar h] at c
  simp only [secp256k1_ext_scalar_mul_bytes, scalar_check_valid scalar h] at c ⊢
  simp only [pointOf] at e
  simp [c, secp256k1_scalar_clear, storeHi_storeLo, secp256k1_ecmult_const, pointOf, e]

theorem scalar_base_mult_invalid (out : Buf 64) (scalar : Buf 32) (h : ¬ ValidScalar scalar) :
    (secp256k1_ext_scalar_base_mult out scalar).ret = 0 ∧
    (secp256k1_ext_scalar_base_mult out scalar).out = out := by
  have c := scalar_check_invalid scalar h
  simp [secp256k1_ext_scalar_base_mult, c]

theorem scalar_base_mult_valid (out : Buf 64) (scalar : Buf 32) (h : ValidScalar scalar) :
    secp256k1_ext_scalar_base_mult out scalar =
      { ret := 1, out := encodePoint (geMul (beValue scalar.1) secp256k1_ge_const_g),
        temps := [some 0] } := by
  have c := (scalar_check_iff scalar).mpr h
  have e := serialized_eq_encodePoint _ (geMul_reduced (beValue scalar.1) secp256k1_ge_const_g)
  rw [scalar_check_valid scalar h] at c
  simp only [secp256k1_ext_scalar_base_mult, scalar_check_valid scalar h] at c ⊢
  simp [c, secp256k1_scalar_clear, storeHi_storeLo, secp256k1_ecmult_gen, e]

theorem schnorr_verify_invalid (P R : Buf 64) (s e : Buf 32)
    (h : ¬ ValidScalar e ∨ ¬ ValidScalar s) :
    (secp256k1_ext_schnorr_verify P R s e).ret = 0 := by
  by_cases he : ValidScalar e
  · have hs : ¬ ValidScalar s := h.resolve_left (fun hne => hne he)
    have c1 := (scalar_check_iff e).mpr he
    have c2 := scalar_check_invalid s hs
    simp [secp256k1_ext_schnorr_verify, c1, c2]
  · have c1 := scalar_check_invalid e he
    simp [secp256k1_ext_schnorr_verify, c1]

theorem schnorr_verify_valid (P R : Buf 64) (s e : Buf 32)
    (hs : ValidScalar s) (he : ValidScalar e) :
    secp256k1_ext_schnorr_verify P R s e =
      { ret := if encodePoint (geAdd (geMul (beValue e.1) (pointOf P))
            (geMul (beValue s.1) secp256k1_ge_const_g)) = R then 1 else 0,
        temps := [some 0] } := by
  have c1 := (scalar_check_iff e).mpr he
  have c2 := (scalar_check_iff s).mpr hs
  have k := serialized_eq_encodePoint _
    (geAdd_reduced (geMul (beValue e.1) (pointOf P)) (geMul (beValue s.1) secp256k1_ge_const_g))
  have g : secp256k1_ge_set_gej (geMul (beValue s.1) secp256k1_ge_const_g) =
      geMul (beValue s.1) secp256k1_ge_const_g := geMul_reduced _ _
  rw [scalar_check_valid e he] at c1
  rw [scalar_check_valid s hs] at c2
  simp only [pointOf] at k
  simp only [secp256k1_ext_schnorr_verify, scalar_check_valid e he, scalar_check_valid s hs]
    at c1 c2 ⊢
  simp [c1, c2, secp256k1_scalar_clear, secp256k1_ecmult_const, secp256k1_ecmult_gen,
    secp256k1_gej_add_ge, pointOf, g, k]

set_option maxRecDepth 100000 in
theorem flipByte_ne : ∀ (b : Fin 256) (j : Fin 8), (b.val ^^^ 2 ^ j.val) % 256 ≠ b.val := by
  decide

theorem flipBit_ne (R : Buf 64) (i : Fin 64) (j : Fin 8) : flipBit R i j ≠ R := by
  intro h
  have hi : i.val < R.1.length := by rw [R.2]; exact i.isLt
  have hl : (flipBit R i j).1 = R.1 := congrArg Subtype.val h
  have hg : (flipBit R i j).1.get? i.val = R.1.get? i.val := by rw [hl]
  simp only [flipBit, List.get?_eq_getElem?, List.getElem?_set_self hi,
    List.getElem?_eq_getElem hi, Option.some.injEq] at hg
  have hv := congrArg Fin.val hg
  exact flipByte_ne _ j hv

/-! ## Contracts of the scalar helpers -/

/-- C7, as the code has it: for valid scalars `a` and `b` of different values,
`secp256k1_ext_sc_sub(r, a, b)` returns 1 and `secp256k1_ext_sc_add(out, r, b)`
then returns 1 with `out` equal to `a` byte for byte; when the two values are
equal the subtraction returns 1 with 32 zero bytes in `r`, which the addition
rejects by returning 0. -/
theorem sc_sub_then_add (r0 out0 a b : Buf 32) (ha : ValidScalar a) (hb : ValidScalar b) :
    (secp256k1_ext_sc_sub r0 a b).ret = 1 ∧
    (beValue a.1 ≠ beValue b.1 →
      (secp256k1_ext_sc_add out0 (secp256k1_ext_sc_sub r0 a b).out b).ret = 1 ∧
      (secp256k1_ext_sc_add out0 (secp256k1_ext_sc_sub r0 a b).out b).out = a) ∧
    (beValue a.1 = beValue b.1 →
      (secp256k1_ext_sc_sub r0 a b).out = be32 0 ∧
      (secp256k1_ext_sc_add out0 (secp256k1_ext_sc_sub r0 a b).out b).ret = 0) := by
  rw [sc_sub_valid r0 a b ha hb]
  refine ⟨rfl, ?_, ?_⟩
  · intro hne
    have hr : ValidScalar (be32 ((beValue a.1 + (N_ORDER - beValue b.1)) % N_ORDER)) := by
      unfold ValidScalar
      rw [beValue_be32_of_lt _ (sub_value_lt _ _)]
      exact ⟨sub_value_pos _ _ ha.2 hb.1 hb.2 hne, sub_value_lt _ _⟩
    simp only []
    rw [sc_add_valid out0 _ b hr hb]
    simp only [true_and]
    rw [beValue_be32_of_lt _ (sub_value_lt _ _), sub_add_value _ _ ha.2 hb.2]
    exact be32_beValue a
  · intro heq
    have hz : (beValue a.1 + (N_ORDER - beValue b.1)) % N_ORDER = 0 := by
      have h1 := ha.2
      rw [heq]
      rw [heq] at h1
      unfold N_ORDER at *
      omega
    simp only [hz, true_and]
    refine (sc_add_invalid out0 (be32 0) b ?_).1
    intro h
    exact absurd h.1.1 (by decide)

/-- Witness of `sc_sub_then_add` at `a = 5`, `b = 3`. -/
theorem sc_sub_then_add_witness :
    ValidScalar (be32 5) ∧ ValidScalar (be32 3) ∧
    ((secp256k1_ext_sc_sub (be32 0) (be32 5) (be32 3)).ret = 1 ∧
    (beValue (be32 5).1 ≠ beValue (be32 3).1 →
      (secp256k1_ext_sc_add (be32 0)
        (secp256k1_ext_sc_sub (be32 0) (be32 5) (be32 3)).out (be32 3)).ret = 1 ∧
      (secp256k1_ext_sc_add (be32 0)
        (secp256k1_ext_sc_sub (be32 0) (be32 5) (be32 3)).out (be32 3)).out = be32 5) ∧
    (beValue (be32 5).1 = beValue (be32 3).1 →
      (secp256k1_ext_sc_sub (be32 0) (be32 5) (be32 3)).out = be32 0 ∧
      (secp256k1_ext_sc_add (be32 0)
        (secp256k1_ext_sc_sub (be32 0) (be32 5) (be32 3)).out (be32 3)).ret = 0)) :=
  ⟨by decide, by decide,
    sc_sub_then_add (be32 0) (be32 0) (be32 5) (be32 3) (by decide) (by decide)⟩

/-- C7 fails as stated: with `a = b = 1`, both valid, `secp256k1_ext_sc_sub`
returns 1 and writes 32 zero bytes, and `secp256k1_ext_sc_add` on that result
returns 0 instead of 1. -/
theorem sc_sub_then_add_equal_operands :
    ¬ (ValidScalar (be32 1) → ValidScalar (be32 1) →
      (secp256k1_ext_sc_sub (be32 0) (be32 1) (be32 1)).ret = 1 ∧
      (secp256k1_ext_sc_add (be32 0)
        (secp256k1_ext_sc_sub (be32 0) (be32 1) (be32 1)).out (be32 1)).ret = 1 ∧
      (secp256k1_ext_sc_add (be32 0)
        (secp256k1_ext_sc_sub (be32 0) (be32 1) (be32 1)).out (be32 1)).out = be32 1) := by
  decide

/-- C8: for valid operands `secp256k1_ext_sc_mul` returns 1 and writes the
32-byte big-endian encoding of the product of the two values modulo the curve
order. -/
theorem sc_mul_correct (out s1 s2 : Buf 32) (h1 : ValidScalar s1) (h2 : ValidScalar s2) :
    (secp256k1_ext_sc_mul out s1 s2).ret = 1 ∧
    (secp256k1_ext_sc_mul out s1 s2).out = be32 (beValue s1.1 * beValue s2.1 % N_ORDER) ∧
    beValue (secp256k1_ext_sc_mul out s1 s2).out.1 = beValue s1.1 * beValue s2.1 % N_ORDER := by
  rw [sc_mul_valid out s1 s2 h1 h2]
  exact ⟨rfl, rfl, beValue_be32_of_lt _ (Nat.mod_lt _ N_ORDER_pos)⟩

/-- Witness of `sc_mul_correct` at `a = n - 1`, `b = 2`. -/
theorem sc_mul_correct_witness :
    ValidScalar (be32 (N_ORDER - 1)) ∧ ValidScalar (be32 2) ∧
    ((secp256k1_ext_sc_mul (be32 0) (be32 (N_ORDER - 1)) (be32 2)).ret = 1 ∧
    (secp256k1_ext_sc_mul (be32 0) (be32 (N_ORDER - 1)) (be32 2)).out =
      be32 (beValue (be32 (N_ORDER - 1)).1 * beValue (be32 2).1 % N_ORDER) ∧
    beValue (secp256k1_ext_sc_mul (be32 0) (be32 (N_ORDER - 1)) (be32 2)).out.1 =
      beValue (be32 (N_ORDER - 1)).1 * beValue (be32 2).1 % N_ORDER) :=
  ⟨by decide, by decide,
    sc_mul_correct (be32 0) (be32 (N_ORDER - 1)) (be32 2) (by decide) (by decide)⟩

/-- C9: for valid operands `secp256k1_ext_sc_sub` returns 1 and writes the
32-byte big-endian encoding of the difference of the two values modulo the curve
order, taken in `[0, n-1]`; equal operands are accepted and give 32 zero
bytes. -/
theorem sc_sub_correct (out s1 s2 : Buf 32) (h1 : ValidScalar s1) (h2 : ValidScalar s2) :
    (secp256k1_ext_sc_sub out s1 s2).ret = 1 ∧
    (secp256k1_ext_sc_sub out s1 s2).out =
      be32 ((((beValue s1.1 : Int) - (beValue s2.1 : Int)) % (N_ORDER : Int)).toNat) ∧
    ((beValue (secp256k1_ext_sc_sub out s1 s2).out.1 : Int) =
      ((beValue s1.1 : Int) - (beValue s2.1 : Int)) % (N_ORDER : Int)) ∧
    (beValue s1.1 = beValue s2.1 →
      (secp256k1_ext_sc_sub out s1 s2).out.1 = List.replicate 32 0) := by
  rw [sc_sub_valid out s1 s2 h1 h2]
  have hv := sub_value_eq _ _ h1.2 h2.2
  refine ⟨rfl, ?_, ?_, ?_⟩
  · simp only [hv]
  · simp only []
    rw [beValue_be32_of_lt _ (sub_value_lt _ _), hv]
    exact Int.toNat_of_nonneg (Int.emod_nonneg _ (by decide))
  · intro heq
    have hz : (beValue s1.1 + (N_ORDER - beValue s2.1)) % N_ORDER = 0 := by
      have h := h1.2
      rw [heq]
      rw [heq] at h
      unfold N_ORDER at *
      omega
    simp only [hz]
    decide

/-- Witness of `sc_sub_correct` at `a = 1`, `b = n - 1`. -/
theorem sc_sub_correct_witness :
    ValidScalar (be32 1) ∧ ValidScalar (be32 (N_ORDER - 1)) ∧
    (secp256k1_ext_sc_sub (be32 0) (be32 1) (be32 (N_ORDER - 1))).ret = 1 ∧
    (secp256k1_ext_sc_sub (be32 0) (be32 1) (be32 (N_ORDER - 1))).out = be32 2 :=
  ⟨by decide, by decide,
    (sc_sub_correct (be32 0) (be32 1) (be32 (N_ORDER - 1)) (by decide) (by decide)).1,
    by decide⟩

/-- C10: each of `secp256k1_ext_sc_mul`, `secp256k1_ext_sc_sub` and
`secp256k1_ext_sc_add` returns 1 exactly when both operands are nonzero and
below the curve order (and returns 0 otherwise); an operand equal to the curve
order itself makes each of them return 0. -/
theorem sc_ops_succeed_iff_valid (out s1 s2 : Buf 32) :
    ((secp256k1_ext_sc_mul out s1 s2).ret = 1 ↔ ValidScalar s1 ∧ ValidScalar s2) ∧
    ((secp256k1_ext_sc_sub out s1 s2).ret = 1 ↔ ValidScalar s1 ∧ ValidScalar s2) ∧
    ((secp256k1_ext_sc_add out s1 s2).ret = 1 ↔ ValidScalar s1 ∧ ValidScalar s2) ∧
    (¬ (ValidScalar s1 ∧ ValidScalar s2) →
      (secp256k1_ext_sc_mul out s1 s2).ret = 0 ∧
      (secp256k1_ext_sc_sub out s1 s2).ret = 0 ∧
      (secp256k1_ext_sc_add out s1 s2).ret = 0) ∧
    (beValue s1.1 = N_ORDER ∨ beValue s2.1 = N_ORDER →
      (secp256k1_ext_sc_mul out s1 s2).ret = 0 ∧
      (secp256k1_ext_sc_sub out s1 s2).ret = 0 ∧
      (secp256k1_ext_sc_add out s1 s2).ret = 0) := by
  have hfail : ¬ (ValidScalar s1 ∧ ValidScalar s2) →
      (secp256k1_ext_sc_mul out s1 s2).ret = 0 ∧
      (secp256k1_ext_sc_sub out s1 s2).ret = 0 ∧
      (secp256k1_ext_sc_add out s1 s2).ret = 0 := fun h =>
    ⟨(sc_mul_invalid out s1 s2 h).1, (sc_sub_invalid out s1 s2 h).1,
      (sc_add_invalid out s1 s2 h).1⟩
  refine ⟨?_, ?_, ?_, hfail, ?_⟩
  · constructor
    · intro h
      by_contra hv
      rw [(hfail hv).1] at h
      exact absurd h (by decide)
    · rintro ⟨h1, h2⟩
      rw [sc_mul_valid out s1 s2 h1 h2]
  · constructor
    · intro h
      by_contra hv
      rw [(hfail hv).2.1] at h
      exact absurd h (by decide)
    · rintro ⟨h1, h2⟩
      rw [sc_sub_valid out s1 s2 h1 h2]
  · constructor
    · intro h
      by_contra hv
      rw [(hfail hv).2.2] at h
      exact absurd h (by decide)
    · rintro ⟨h1, h2⟩
      rw [sc_add_valid out s1 s2 h1 h2]
  · intro h
    apply hfail
    rintro ⟨h1, h2⟩
    rcases h with h | h
    · exact absurd h1.2 (by rw [h]; exact lt_irrefl _)
    · exact absurd h2.2 (by rw [h]; exact lt_irrefl _)

/-! ## Contracts of the point operations -/

/-- C2: when `secp256k1_ext_schnorr_verify` returns 1 on `(P, R, s, e)`, it
returns 0 on `(P, R', s, e)` for every `R'` obtained from `R` by flipping one
bit. -/
theorem schnorr_verify_bit_flip (P R : Buf 64) (s e : Buf 32) (i : Fin 64) (j : Fin 8)
    (h : (secp256k1_ext_schnorr_verify P R s e).ret = 1) :
    (secp256k1_ext_schnorr_verify P (flipBit R i j) s e).ret = 0 := by
  by_cases hv : ValidScalar s ∧ ValidScalar e
  · rw [schnorr_verify_valid P R s e hv.1 hv.2] at h
    rw [schnorr_verify_valid P (flipBit R i j) s e hv.1 hv.2]
    simp only at h ⊢
    by_cases hR : encodePoint (geAdd (geMul (beValue e.1) (pointOf P))
        (geMul (beValue s.1) secp256k1_ge_const_g)) = R
    · have hne : ¬ encodePoint (geAdd (geMul (beValue e.1) (pointOf P))
          (geMul (beValue s.1) secp256k1_ge_const_g)) = flipBit R i j := by
        rw [hR]
        exact fun hc => flipBit_ne R i j hc.symm
      rw [if_neg hne]
    · rw [if_neg hR] at h
      exact absurd h (by decide)
  · have hinv : ¬ ValidScalar e ∨ ¬ ValidScalar s := by
      by_cases he : ValidScalar e
      · exact Or.inr (fun hs => hv ⟨hs, he⟩)
      · exact Or.inl he
    exact schnorr_verify_invalid P _ s e hinv

set_option maxRecDepth 100000 in
/-- Witness of `schnorr_verify_bit_flip`: `P = G`, `R = 2G`, `s = e = 1`, and the
lowest bit of the first byte of `R` flipped. -/
theorem schnorr_verify_bit_flip_witness :
    (secp256k1_ext_schnorr_verify (encodePoint secp256k1_ge_const_g)
      (encodePoint (geMul 2 secp256k1_ge_const_g)) (be32 1) (be32 1)).ret = 1 ∧
    (secp256k1_ext_schnorr_verify (encodePoint secp256k1_ge_const_g)
      (flipBit (encodePoint (geMul 2 secp256k1_ge_const_g)) 0 0) (be32 1) (be32 1)).ret = 0 :=
  ⟨by decide,
    schnorr_verify_bit_flip (encodePoint secp256k1_ge_const_g)
      (encodePoint (geMul 2 secp256k1_ge_const_g)) (be32 1) (be32 1) 0 0 (by decide)⟩

/-- C3: `secp256k1_ext_schnorr_verify` returns 0 for every `P` and `R` whenever
the value of `e` or of `s` is zero or at least the curve order. -/
theorem schnorr_verify_rejects_invalid_scalar (P R : Buf 64) (s e : Buf 32)
    (h : ¬ ValidScalar e ∨ ¬ ValidScalar s) :
    (secp256k1_ext_schnorr_verify P R s e).ret = 0 :=
  schnorr_verify_invalid P R s e h

set_option maxRecDepth 100000 in
/-- Witness of `schnorr_verify_rejects_invalid_scalar`: `P = G`, `R = 2G`,
`s = 1` and `e = n + 1`, which reduces to 1; with `e = 1` the same call
returns 1. -/
theorem schnorr_verify_rejects_invalid_scalar_witness :
    (¬ ValidScalar (be32 (N_ORDER + 1)) ∨ ¬ ValidScalar (be32 1)) ∧
    (secp256k1_ext_schnorr_verify (encodePoint secp256k1_ge_const_g)
      (encodePoint (geMul 2 secp256k1_ge_const_g)) (be32 1) (be32 (N_ORDER + 1))).ret = 0 ∧
    (secp256k1_ext_schnorr_verify (encodePoint secp256k1_ge_const_g)
      (encodePoint (geMul 2 secp256k1_ge_const_g)) (be32 1) (be32 1)).ret = 1 :=
  ⟨Or.inl (by decide),
    schnorr_verify_rejects_invalid_scalar (encodePoint secp256k1_ge_const_g)
      (encodePoint (geMul 2 secp256k1_ge_const_g)) (be32 1) (be32 (N_ORDER + 1))
      (Or.inl (by decide)),
    by decide⟩

/-- C5: `secp256k1_ext_scalar_mul_bytes` and `secp256k1_ext_scalar_base_mult`
return 1 exactly when the scalar is nonzero and below the curve order, and 0
otherwise, whatever the 64-byte point buffer holds. -/
theorem scalar_mult_succeeds_iff_valid (out point : Buf 64) (scalar : Buf 32) :
    ((secp256k1_ext_scalar_mul_bytes out point scalar).ret = 1 ↔ ValidScalar scalar) ∧
    ((secp256k1_ext_scalar_base_mult out scalar).ret = 1 ↔ ValidScalar scalar) ∧
    (¬ ValidScalar scalar →
      (secp256k1_ext_scalar_mul_bytes out point scalar).ret = 0 ∧
      (secp256k1_ext_scalar_base_mult out scalar).ret = 0) := by
  by_cases h : ValidScalar scalar
  · rw [scalar_mul_bytes_valid out point scalar h, scalar_base_mult_valid out scalar h]
    simp [h]
  · rw [scalar_mul_bytes_invalid out point scalar h, (scalar_base_mult_invalid out scalar h).1]
    simp [h]

/-- C6: whenever one of `secp256k1_ext_scalar_mul`,
`secp256k1_ext_scalar_mul_bytes`, `secp256k1_ext_scalar_base_mult`,
`secp256k1_ext_sc_mul`, `secp256k1_ext_sc_sub` and `secp256k1_ext_sc_add`
returns 0, its output buffer holds the bytes it held before the call. -/
theorem output_unchanged_on_failure (point out64 : Buf 64) (scalar out32 s1 s2 : Buf 32) :
    ((secp256k1_ext_scalar_mul point scalar).ret = 0 →
      (secp256k1_ext_scalar_mul point scalar).out = point) ∧
    ((secp256k1_ext_scalar_mul_bytes out64 point scalar).ret = 0 →
      (secp256k1_ext_scalar_mul_bytes out64 point scalar).out = out64) ∧
    ((secp256k1_ext_scalar_base_mult out64 scalar).ret = 0 →
      (secp256k1_ext_scalar_base_mult out64 scalar).out = out64) ∧
    ((secp256k1_ext_sc_mul out32 s1 s2).ret = 0 →
      (secp256k1_ext_sc_mul out32 s1 s2).out = out32) ∧
    ((secp256k1_ext_sc_sub out32 s1 s2).ret = 0 →
      (secp256k1_ext_sc_sub out32 s1 s2).out = out32) ∧
    ((secp256k1_ext_sc_add out32 s1 s2).ret = 0 →
      (secp256k1_ext_sc_add out32 s1 s2).out = out32) := by
  refine ⟨?_, ?_, ?_, ?_, ?_, ?_⟩
  · by_cases h : ValidScalar scalar
    · rw [scalar_mul_valid point scalar h]
      intro hc
      exact absurd hc one_ne_zero
    · rw [scalar_mul_invalid point scalar h]
      exact fun _ => rfl
  · by_cases h : ValidScalar scalar
    · rw [scalar_mul_bytes_valid out64 point scalar h]
      intro hc
      exact absurd hc one_ne_zero
    · rw [scalar_mul_bytes_invalid out64 point scalar h]
      exact fun _ => rfl
  · by_cases h : ValidScalar scalar
    · rw [scalar_base_mult_valid out64 scalar h]
      intro hc
      exact absurd hc one_ne_zero
    · exact fun _ => (scalar_base_mult_invalid out64 scalar h).2
  · by_cases h : ValidScalar s1 ∧ ValidScalar s2
    · rw [sc_mul_valid out32 s1 s2 h.1 h.2]
      intro hc
      exact absurd hc one_ne_zero
    · exact fun _ => (sc_mul_invalid out32 s1 s2 h).2
  · by_cases h : ValidScalar s1 ∧ ValidScalar s2
    · rw [sc_sub_valid out32 s1 s2 h.1 h.2]
      intro hc
      exact absurd hc one_ne_zero
    · exact fun _ => (sc_sub_invalid out32 s1 s2 h).2
  · by_cases h : ValidScalar s1 ∧ ValidScalar s2
    · rw [sc_add_valid out32 s1 s2 h.1 h.2]
      intro hc
      exact absurd hc one_ne_zero
    · exact fun _ => (sc_add_invalid out32 s1 s2 h).2

/-- C4: for a valid scalar of value `k`, `secp256k1_ext_scalar_base_mult` returns
1 and writes `x || y`, the canonical 32-byte big-endian coordinates of `k * G`,
which is an affine point of the curve; for `k = 1` these are the published
generator coordinates and for `k = 2` the published coordinates of the doubled
generator. -/
theorem scalar_base_mult_correct (out : Buf 64) (scalar : Buf 32) (h : ValidScalar scalar) :
    (secp256k1_ext_scalar_base_mult out scalar).ret = 1 ∧
    (secp256k1_ext_scalar_base_mult out scalar).out =
      encodePoint (geMul (beValue scalar.1) secp256k1_ge_const_g) ∧
    ((geMul (beValue scalar.1) secp256k1_ge_const_g).infinity = false ∧
      (geMul (beValue scalar.1) secp256k1_ge_const_g).y *
          (geMul (beValue scalar.1) secp256k1_ge_const_g).y % P_FIELD =
        ((geMul (beValue scalar.1) secp256k1_ge_const_g).x *
          (geMul (beValue scalar.1) secp256k1_ge_const_g).x *
          (geMul (beValue scalar.1) secp256k1_ge_const_g).x + 7) % P_FIELD) ∧
    (beValue (lo32 (secp256k1_ext_scalar_base_mult out scalar).out).1 =
        (geMul (beValue scalar.1) secp256k1_ge_const_g).x ∧
      beValue (hi32 (secp256k1_ext_scalar_base_mult out scalar).out).1 =
        (geMul (beValue scalar.1) secp256k1_ge_const_g).y ∧
      (geMul (beValue scalar.1) secp256k1_ge_const_g).x < P_FIELD ∧
      (geMul (beValue scalar.1) secp256k1_ge_const_g).y < P_FIELD) ∧
    (beValue scalar.1 = 1 →
      (secp256k1_ext_scalar_base_mult out scalar).out = join32
        (be32 0x79BE667EF9DCBBAC55A06295CE870B07029BFCDB2DCE28D959F2815B16F81798)
        (be32 0x483ADA7726A3C4655DA4FBFC0E1108A8FD17B448A68554199C47D08FFB10D4B8)) ∧
    (beValue scalar.1 = 2 →
      (secp256k1_ext_scalar_base_mult out scalar).out = join32
        (be32 0xC6047F9441ED7D6D3045406E95C07CD85C778E4B8CEF3CA7ABAC09B95C709EE5)
        (be32 0x1AE168FEA63DC339A3C58419466CEAEEF7F632653266D0E1236431A950CFE52A)) := by
  have hlt := reduced_coords_lt _ (geMul_reduced (beValue scalar.1) secp256k1_ge_const_g)
  rw [scalar_base_mult_valid out scalar h]
  refine ⟨rfl, rfl, ⟨geMul_g_finite _ h.1 h.2, geMul_g_equation _ h.1 h.2⟩,
    ⟨?_, ?_, hlt.1, hlt.2⟩, ?_, ?_⟩
  · simp only [encodePoint, lo32_join32]
    exact beValue_be32_of_lt_p _ hlt.1
  · simp only [encodePoint, hi32_join32]
    exact beValue_be32_of_lt_p _ hlt.2
  · intro h1
    rw [h1, geMul_one_g]
    rfl
  · intro h2
    rw [h2, geMul_two_g]
    rfl

set_option maxRecDepth 100000 in
/-- Witness of `scalar_base_mult_correct` at the scalar 2: the output is the
published doubling of the generator. -/
theorem scalar_base_mult_correct_witness :
    ValidScalar (be32 2) ∧
    (secp256k1_ext_scalar_base_mult (encodePoint geInfinity) (be32 2)).ret = 1 ∧
    (secp256k1_ext_scalar_base_mult (encodePoint geInfinity) (be32 2)).out = join32
      (be32 0xC6047F9441ED7D6D3045406E95C07CD85C778E4B8CEF3CA7ABAC09B95C709EE5)
      (be32 0x1AE168FEA63DC339A3C58419466CEAEEF7F632653266D0E1236431A950CFE52A) :=
  ⟨by decide,
    (scalar_base_mult_correct (encodePoint geInfinity) (be32 2) (by decide)).1,
    (scalar_base_mult_correct (encodePoint geInfinity) (be32 2) (by decide)).2.2.2.2.2
      (by decide)⟩

/-- C1: for `P` holding a point of the curve and valid scalars `s` and `e`, when
`s * G + e * P` is an affine point and `R` is its 64-byte big-endian `(x, y)`
encoding, `secp256k1_ext_schnorr_verify(P, R, s, e)` returns 1. -/
theorem schnorr_verify_complete (P R : Buf 64) (s e : Buf 32)
    (hP : OnCurve P) (hs : ValidScalar s) (he : ValidScalar e)
    (hfin : (geAdd (geMul (beValue s.1) secp256k1_ge_const_g)
      (geMul (beValue e.1) (pointOf P))).infinity = false)
    (hR : R = encodePoint (geAdd (geMul (beValue s.1) secp256k1_ge_const_g)
      (geMul (beValue e.1) (pointOf P)))) :
    (secp256k1_ext_schnorr_verify P R s e).ret = 1 := by
  rw [schnorr_verify_valid P R s e hs he, hR,
    geAdd_comm (geMul (beValue e.1) (pointOf P)) (geMul (beValue s.1) secp256k1_ge_const_g)]
  simp

set_option maxRecDepth 100000 in
/-- Witness of `schnorr_verify_complete`: `P = 2G`, `s = 3`, `e = 5` and
`R = 13G`. -/
theorem schnorr_verify_complete_witness :
    OnCurve (join32
      (be32 0xC6047F9441ED7D6D3045406E95C07CD85C778E4B8CEF3CA7ABAC09B95C709EE5)
      (be32 0x1AE168FEA63DC339A3C58419466CEAEEF7F632653266D0E1236431A950CFE52A)) ∧
    ValidScalar (be32 3) ∧ ValidScalar (be32 5) ∧
    (secp256k1_ext_schnorr_verify
      (join32
        (be32 0xC6047F9441ED7D6D3045406E95C07CD85C778E4B8CEF3CA7ABAC09B95C709EE5)
        (be32 0x1AE168FEA63DC339A3C58419466CEAEEF7F632653266D0E1236431A950CFE52A))
      (join32
        (be32 0xF28773C2D975288BC7D1D205C3748651B075FBC6610E58CDDEEDDF8F19405AA8)
        (be32 0x0AB0902E8D880A89758212EB65CDAF473A1A06DA521FA91F29B5CB52DB03ED81))
      (be32 3) (be32 5)).ret = 1 :=
  ⟨by decide, by decide, by decide,
    schnorr_verify_complete _ _ (be32 3) (be32 5) (by decide) (by decide) (by decide)
      (by decide) (by decide)⟩

/-! ## Operand order and validity of the scalar results -/

theorem mul_value_pos (a b : Nat) (ha0 : 0 < a) (ha : a < N_ORDER) (hb0 : 0 < b)
    (hb : b < N_ORDER) : 0 < a * b % N_ORDER := by
  apply Nat.pos_of_ne_zero
  intro h
  have hd : N_ORDER ∣ a * b := Nat.dvd_of_mod_eq_zero h
  rcases (Nat.Prime.dvd_mul N_ORDER_prime).mp hd with h1 | h1
  · exact absurd (Nat.le_of_dvd ha0 h1) (not_le.mpr ha)
  · exact absurd (Nat.le_of_dvd hb0 h1) (not_le.mpr hb)

/-- C11: for valid operands, exchanging them changes neither the 32 bytes
written by `secp256k1_ext_sc_add` nor those written by `secp256k1_ext_sc_mul`
(both calls return 1 either way). -/
theorem sc_add_mul_operands_commute (out1 out2 a b : Buf 32)
    (ha : ValidScalar a) (hb : ValidScalar b) :
    ((secp256k1_ext_sc_add out1 a b).ret = 1 ∧ (secp256k1_ext_sc_add out2 b a).ret = 1 ∧
      (secp256k1_ext_sc_add out1 a b).out = (secp256k1_ext_sc_add out2 b a).out) ∧
    ((secp256k1_ext_sc_mul out1 a b).ret = 1 ∧ (secp256k1_ext_sc_mul out2 b a).ret = 1 ∧
      (secp256k1_ext_sc_mul out1 a b).out = (secp256k1_ext_sc_mul out2 b a).out) := by
  rw [sc_add_valid out1 a b ha hb, sc_add_valid out2 b a hb ha,
    sc_mul_valid out1 a b ha hb, sc_mul_valid out2 b a hb ha]
  refine ⟨⟨rfl, rfl, ?_⟩, ⟨rfl, rfl, ?_⟩⟩
  · simp only [Nat.add_comm]
  · simp only [Nat.mul_comm]

/-- Witness of `sc_add_mul_operands_commute` at `a = n - 1`, `b = 7`. -/
theorem sc_add_mul_operands_commute_witness :
    ValidScalar (be32 (N_ORDER - 1)) ∧ ValidScalar (be32 7) ∧
    (((secp256k1_ext_sc_add (be32 0) (be32 (N_ORDER - 1)) (be32 7)).ret = 1 ∧
      (secp256k1_ext_sc_add (be32 1) (be32 7) (be32 (N_ORDER - 1))).ret = 1 ∧
      (secp256k1_ext_sc_add (be32 0) (be32 (N_ORDER - 1)) (be32 7)).out =
        (secp256k1_ext_sc_add (be32 1) (be32 7) (be32 (N_ORDER - 1))).out) ∧
    ((secp256k1_ext_sc_mul (be32 0) (be32 (N_ORDER - 1)) (be32 7)).ret = 1 ∧
      (secp256k1_ext_sc_mul (be32 1) (be32 7) (be32 (N_ORDER - 1))).ret = 1 ∧
      (secp256k1_ext_sc_mul (be32 0) (be32 (N_ORDER - 1)) (be32 7)).out =
        (secp256k1_ext_sc_mul (be32 1) (be32 7) (be32 (N_ORDER - 1))).out)) :=
  ⟨by decide, by decide,
    sc_add_mul_operands_commute (be32 0) (be32 1) (be32 (N_ORDER - 1)) (be32 7)
      (by decide) (by decide)⟩

/-- C20: for valid operands the 32 bytes written by `secp256k1_ext_sc_mul` are
again a valid operand, nonzero and below the curve order; `secp256k1_ext_sc_add`
and `secp256k1_ext_sc_sub` do write 32 zero bytes for some valid operands. -/
theorem sc_mul_output_valid (out s1 s2 : Buf 32) (h1 : ValidScalar s1) (h2 : ValidScalar s2) :
    (secp256k1_ext_sc_mul out s1 s2).ret = 1 ∧
    ValidScalar (secp256k1_ext_sc_mul out s1 s2).out ∧
    (∃ a b : Buf 32, ValidScalar a ∧ ValidScalar b ∧
      (secp256k1_ext_sc_add out a b).ret = 1 ∧
      (secp256k1_ext_sc_add out a b).out.1 = List.replicate 32 0) ∧
    (∃ a b : Buf 32, ValidScalar a ∧ ValidScalar b ∧
      (secp256k1_ext_sc_sub out a b).ret = 1 ∧
      (secp256k1_ext_sc_sub out a b).out.1 = List.replicate 32 0) := by
  refine ⟨?_, ?_, ?_, ?_⟩
  · rw [sc_mul_valid out s1 s2 h1 h2]
  · rw [sc_mul_valid out s1 s2 h1 h2]
    unfold ValidScalar
    simp only []
    rw [beValue_be32_of_lt _ (Nat.mod_lt _ N_ORDER_pos)]
    exact ⟨mul_value_pos _ _ h1.1 h1.2 h2.1 h2.2, Nat.mod_lt _ N_ORDER_pos⟩
  · have ha : ValidScalar (be32 1) := by decide
    have hb : ValidScalar (be32 (N_ORDER - 1)) := by decide
    refine ⟨be32 1, be32 (N_ORDER - 1), ha, hb, ?_, ?_⟩
    · rw [sc_add_valid out _ _ ha hb]
    · rw [sc_add_valid out _ _ ha hb]
      decide
  · have ha : ValidScalar (be32 1) := by decide
    refine ⟨be32 1, be32 1, ha, ha, ?_, ?_⟩
    · rw [sc_sub_valid out _ _ ha ha]
    · rw [sc_sub_valid out _ _ ha ha]
      decide

/-- Witness of `sc_mul_output_valid` at `a = n - 1`, `b = n - 1`, whose product
is 1 modulo `n`. -/
theorem sc_mul_output_valid_witness :
    ValidScalar (be32 (N_ORDER - 1)) ∧
    (secp256k1_ext_sc_mul (be32 0) (be32 (N_ORDER - 1)) (be32 (N_ORDER - 1))).ret = 1 ∧
    ValidScalar (secp256k1_ext_sc_mul (be32 0) (be32 (N_ORDER - 1)) (be32 (N_ORDER - 1))).out :=
  ⟨by decide,
    (sc_mul_output_valid (be32 0) (be32 (N_ORDER - 1)) (be32 (N_ORDER - 1))
      (by decide) (by decide)).1,
    (sc_mul_output_valid (be32 0) (be32 (N_ORDER - 1)) (be32 (N_ORDER - 1))
      (by decide) (by decide)).2.1⟩

/-! ## Wiping of the scalar temporaries -/

/-- The two point multiplications that take a point clear their scalar on every
path. -/
theorem scalar_mul_wipes (out point : Buf 64) (scalar : Buf 32) :
    (secp256k1_ext_scalar_mul point scalar).temps = [some 0] ∧
    (secp256k1_ext_scalar_mul_bytes out point scalar).temps = [some 0] := by
  by_cases h : ValidScalar scalar
  · rw [scalar_mul_valid point scalar h, scalar_mul_bytes_valid out point scalar h]
    exact ⟨rfl, rfl⟩
  · rw [scalar_mul_invalid point scalar h, scalar_mul_bytes_invalid out point scalar h]
    exact ⟨rfl, rfl⟩

/-- C17 fails on the code: with the scalar `n + 1`, which overflows and reduces
to 1, `secp256k1_ext_scalar_base_mult`, `secp256k1_ext_schnorr_verify` (as `e`)
and `secp256k1_ext_sc_mul`, `secp256k1_ext_sc_sub`, `secp256k1_ext_sc_add` (as
first operand) return 0 with the decoded scalar 1 left in their temporary; and
on the success path `secp256k1_ext_sc_mul` leaves the product in `r`. -/
theorem scalar_left_unwiped :
    (secp256k1_ext_scalar_base_mult (encodePoint geInfinity) (be32 (N_ORDER + 1))).ret = 0 ∧
    (secp256k1_ext_scalar_base_mult (encodePoint geInfinity) (be32 (N_ORDER + 1))).temps =
      [some 1] ∧
    (secp256k1_ext_schnorr_verify (encodePoint secp256k1_ge_const_g)
      (encodePoint secp256k1_ge_const_g) (be32 1) (be32 (N_ORDER + 1))).temps = [some 1] ∧
    (secp256k1_ext_sc_mul (be32 0) (be32 (N_ORDER + 1)) (be32 1)).temps =
      [none, some 1, none] ∧
    (secp256k1_ext_sc_sub (be32 0) (be32 (N_ORDER + 1)) (be32 1)).temps =
      [none, none, some 1, none] ∧
    (secp256k1_ext_sc_add (be32 0) (be32 (N_ORDER + 1)) (be32 1)).temps =
      [none, some 1, none] ∧
    (secp256k1_ext_sc_mul (be32 0) (be32 2) (be32 3)).ret = 1 ∧
    (secp256k1_ext_sc_mul (be32 0) (be32 2) (be32 3)).temps = [some 6, some 0, some 0] := by
  decide

/-! ## Public key parsing and ECDSA signatures -/

theorem pubkey_parse_bad_length (input : List Byte)
    (h33 : input.length ≠ 33) (h65 : input.length ≠ 65) :
    secp256k1_ec_pubkey_parse input = none := by
  simp [secp256k1_ec_pubkey_parse, h33, h65]

theorem ext_ecdsa_verify_bad_key (sigdata : Buf 64) (msgdata : Buf 32) (pubkeydata : List Byte)
    (h : secp256k1_ec_pubkey_parse pubkeydata = none) :
    secp256k1_ext_ecdsa_verify sigdata msgdata pubkeydata = 0 := by
  unfold secp256k1_ext_ecdsa_verify
  cases secp256k1_ecdsa_signature_parse_compact sigdata with
  | none => rfl
  | some sig => simp [h]

theorem sig_parse_overflow (sigdata : Buf 64)
    (h : N_ORDER ≤ beValue (lo32 sigdata).1 ∨ N_ORDER ≤ beValue (hi32 sigdata).1) :
    secp256k1_ecdsa_signature_parse_compact sigdata = none := by
  unfold secp256k1_ecdsa_signature_parse_compact secp256k1_scalar_set_b32
  rcases h with h | h <;> simp [h]

theorem sig_parse_ok (sigdata : Buf 64)
    (hr : beValue (lo32 sigdata).1 < N_ORDER) (hs : beValue (hi32 sigdata).1 < N_ORDER) :
    secp256k1_ecdsa_signature_parse_compact sigdata =
      some { r := beValue (lo32 sigdata).1, s := beValue (hi32 sigdata).1 } := by
  unfold secp256k1_ecdsa_signature_parse_compact secp256k1_scalar_set_b32
  simp [hr, hs, Nat.mod_eq_of_lt hr, Nat.mod_eq_of_lt hs]

theorem ecdsa_verify_zero (sig : secp256k1_ecdsa_signature) (msg32 : Buf 32)
    (pubkey : secp256k1_pubkey) (h : sig.r = 0 ∨ sig.s = 0) :
    secp256k1_ecdsa_verify sig msg32 pubkey = 0 := by
  unfold secp256k1_ecdsa_verify secp256k1_scalar_is_zero
  rcases h with h | h <;> simp [h]

/-- C14: a public key buffer whose length is neither 33 nor 65 (32 or 64 in
particular) makes `secp256k1_ext_reencode_pubkey` return 0, with its output
buffer as before, and `secp256k1_ext_ecdsa_verify` return 0, whatever the
bytes. -/
theorem pubkey_bad_length_rejected (out pubkeydata : List Byte) (sigdata : Buf 64)
    (msgdata : Buf 32) (h33 : pubkeydata.length ≠ 33) (h65 : pubkeydata.length ≠ 65) :
    (secp256k1_ext_reencode_pubkey out pubkeydata).ret = 0 ∧
    (secp256k1_ext_reencode_pubkey out pubkeydata).out = out ∧
    secp256k1_ext_ecdsa_verify sigdata msgdata pubkeydata = 0 := by
  have hp := pubkey_parse_bad_length pubkeydata h33 h65
  refine ⟨?_, ?_, ext_ecdsa_verify_bad_key sigdata msgdata pubkeydata hp⟩
  · simp [secp256k1_ext_reencode_pubkey, hp]
  · simp [secp256k1_ext_reencode_pubkey, hp]

set_option maxRecDepth 100000 in
/-- Witness of `pubkey_bad_length_rejected`: the 64 raw coordinate bytes of the
generator, one byte short of an uncompressed key, with a signature `r = s = 1`. -/
theorem pubkey_bad_length_rejected_witness :
    (encodePoint secp256k1_ge_const_g).1.length ≠ 33 ∧
    (encodePoint secp256k1_ge_const_g).1.length ≠ 65 ∧
    (secp256k1_ext_reencode_pubkey (List.replicate 65 0)
      (encodePoint secp256k1_ge_const_g).1).ret = 0 ∧
    secp256k1_ext_ecdsa_verify (join32 (be32 1) (be32 1)) (be32 1)
      (encodePoint secp256k1_ge_const_g).1 = 0 :=
  ⟨by decide, by decide,
    (pubkey_bad_length_rejected (List.replicate 65 0) (encodePoint secp256k1_ge_const_g).1
      (join32 (be32 1) (be32 1)) (be32 1) (by decide) (by decide)).1,
    (pubkey_bad_length_rejected (List.replicate 65 0) (encodePoint secp256k1_ge_const_g).1
      (join32 (be32 1) (be32 1)) (be32 1) (by decide) (by decide)).2.2⟩

/-- C15: a compact signature whose `r` or `s` is zero or at least the curve
order makes `secp256k1_ext_ecdsa_verify` return 0 for every digest and every
public key buffer. -/
theorem ecdsa_verify_rejects_invalid_signature (sigdata : Buf 64) (msgdata : Buf 32)
    (pubkeydata : List Byte)
    (h : ¬ ValidScalar (lo32 sigdata) ∨ ¬ ValidScalar (hi32 sigdata)) :
    secp256k1_ext_ecdsa_verify sigdata msgdata pubkeydata = 0 := by
  by_cases ho : N_ORDER ≤ beValue (lo32 sigdata).1 ∨ N_ORDER ≤ beValue (hi32 sigdata).1
  · unfold secp256k1_ext_ecdsa_verify
    rw [sig_parse_overflow sigdata ho]
  · have hr : beValue (lo32 sigdata).1 < N_ORDER := not_le.mp (fun hc => ho (Or.inl hc))
    have hs : beValue (hi32 sigdata).1 < N_ORDER := not_le.mp (fun hc => ho (Or.inr hc))
    have hz : beValue (lo32 sigdata).1 = 0 ∨ beValue (hi32 sigdata).1 = 0 := by
      rcases h with h | h
      · left
        by_contra hc
        exact h ⟨Nat.pos_of_ne_zero hc, hr⟩
      · right
        by_contra hc
        exact h ⟨Nat.pos_of_ne_zero hc, hs⟩
    unfold secp256k1_ext_ecdsa_verify
    rw [sig_parse_ok sigdata hr hs]
    cases hk : secp256k1_ec_pubkey_parse pubkeydata with
    | none => rfl
    | some pubkey => exact ecdsa_verify_zero _ msgdata pubkey hz

set_option maxRecDepth 100000 in
/-- Witness of `ecdsa_verify_rejects_invalid_signature`: `r = 1`, `s = 0` and the
uncompressed generator as public key. -/
theorem ecdsa_verify_rejects_invalid_signature_witness :
    (¬ ValidScalar (lo32 (join32 (be32 1) (be32 0))) ∨
      ¬ ValidScalar (hi32 (join32 (be32 1) (be32 0)))) ∧
    (secp256k1_ec_pubkey_parse (uncompressedKey secp256k1_ge_const_g)).isSome = true ∧
    secp256k1_ext_ecdsa_verify (join32 (be32 1) (be32 0)) (be32 1)
      (uncompressedKey secp256k1_ge_const_g) = 0 :=
  ⟨Or.inr (by decide), by decide,
    ecdsa_verify_rejects_invalid_signature (join32 (be32 1) (be32 0)) (be32 1)
      (uncompressedKey secp256k1_ge_const_g) (Or.inr (by decide))⟩

/-- C16: a 65-byte signature whose last byte, the recovery id, is greater than 3
makes `secp256k1_ext_ecdsa_recover` return 0 without calling the recovery
procedure and with `pubkey_out` as before, for every digest. -/
theorem ecdsa_recover_rejects_bad_recid (pubkey_out : List Byte) (sigdata : Buf 65)
    (msgdata : Buf 32) (h : 3 < (recidByte sigdata).val) :
    (secp256k1_ext_ecdsa_recover pubkey_out sigdata msgdata).ret = 0 ∧
    (secp256k1_ext_ecdsa_recover pubkey_out sigdata msgdata).recover_called = false ∧
    (secp256k1_ext_ecdsa_recover pubkey_out sigdata msgdata).pubkey_out = pubkey_out := by
  have hn : ¬ (recidByte sigdata).val ≤ 3 := not_le.mpr h
  have hp : secp256k1_ecdsa_recoverable_signature_parse_compact (sig64 sigdata)
      (recidByte sigdata).val = none := by
    simp [secp256k1_ecdsa_recoverable_signature_parse_compact, hn]
  simp [secp256k1_ext_ecdsa_recover, hp]

set_option maxRecDepth 100000 in
/-- Witness of `ecdsa_recover_rejects_bad_recid`: `r = s = 1` with recovery
id 4. -/
theorem ecdsa_recover_rejects_bad_recid_witness :
    3 < (recidByte ⟨(join32 (be32 1) (be32 1)).1 ++ [4], by decide⟩).val ∧
    (secp256k1_ext_ecdsa_recover (List.replicate 65 0)
      ⟨(join32 (be32 1) (be32 1)).1 ++ [4], by decide⟩ (be32 1)).ret = 0 ∧
    (secp256k1_ext_ecdsa_recover (List.replicate 65 0)
      ⟨(join32 (be32 1) (be32 1)).1 ++ [4], by decide⟩ (be32 1)).recover_called = false ∧
    (secp256k1_ext_ecdsa_recover (List.replicate 65 0)
      ⟨(join32 (be32 1) (be32 1)).1 ++ [4], by decide⟩ (be32 1)).pubkey_out =
        List.replicate 65 0 :=
  ⟨by decide,
    ecdsa_recover_rejects_bad_recid (List.replicate 65 0)
      ⟨(join32 (be32 1) (be32 1)).1 ++ [4], by decide⟩ (be32 1) (by decide)⟩

/-! ## Public key encodings -/

theorem powMod_lt (m : Nat) (hm : 0 < m) : ∀ (bits b e : Nat), powMod m bits b e < m := by
  intro bits
  induction bits with
  | zero =>
    intro b e
    exact Nat.mod_lt _ hm
  | succ bits ih =>
    intro b e
    unfold powMod
    by_cases h0 : e = 0
    · simp only [h0, if_true]
      exact Nat.mod_lt _ hm
    · by_cases h1 : e % 2 = 1
      · simp only [h0, h1, if_false, if_true]
        exact Nat.mod_lt _ hm
      · simp only [h0, h1, if_false]
        exact ih _ _

theorem feSqrt_lt (a : Nat) : feSqrt a < P_FIELD := powMod_lt P_FIELD P_FIELD_pos _ _ _

theorem neg_sq_mod (y : Nat) (hy : y < P_FIELD) :
    (P_FIELD - y) % P_FIELD * ((P_FIELD - y) % P_FIELD) % P_FIELD = y * y % P_FIELD := by
  rw [← ZMod.natCast_eq_natCast_iff']
  push_cast
  rw [ZMod.natCast_mod, Nat.cast_sub hy.le, ZMod.natCast_self]
  ring

set_option maxRecDepth 100000 in
/-- No field element has a cube equal to `-7`: the curve has no point with
`y = 0`. -/
theorem curveRhs_ne_zero (x : Nat) : curveRhs x ≠ 0 := by
  haveI : Fact (Nat.Prime P_FIELD) := ⟨P_FIELD_prime⟩
  intro h
  have hc : ((x * x * x + 7 : Nat) : ZMod P_FIELD) = 0 := by
    rw [ZMod.natCast_zmod_eq_zero_iff_dvd]
    exact Nat.dvd_of_mod_eq_zero h
  push_cast at hc
  have h7 : ((7 : Nat) : ZMod P_FIELD) ≠ 0 := by
    intro h7
    rw [ZMod.natCast_zmod_eq_zero_iff_dvd] at h7
    exact absurd h7 (by decide)
  have hx0 : (x : ZMod P_FIELD) ≠ 0 := by
    intro h0
    rw [h0] at hc
    apply h7
    push_cast
    linear_combination hc
  have hle : 7 ≤ P_FIELD := by decide
  have hx3 : (x : ZMod P_FIELD) ^ 3 = ((P_FIELD - 7 : Nat) : ZMod P_FIELD) := by
    rw [Nat.cast_sub hle, ZMod.natCast_self]
    push_cast
    linear_combination hc
  have h3 : 3 * ((P_FIELD - 1) / 3) = P_FIELD - 1 := by decide
  have hpow : ((P_FIELD - 7 : Nat) : ZMod P_FIELD) ^ ((P_FIELD - 1) / 3) = 1 := by
    rw [← hx3, ← pow_mul, h3]
    exact ZMod.pow_card_sub_one_eq_one hx0
  have hn : (P_FIELD - 7) ^ ((P_FIELD - 1) / 3) % P_FIELD = 1 := by
    have hcast : (((P_FIELD - 7) ^ ((P_FIELD - 1) / 3) : Nat) : ZMod P_FIELD) =
        ((1 : Nat) : ZMod P_FIELD) := by
      push_cast
      exact hpow
    rw [ZMod.natCast_eq_natCast_iff'] at hcast
    rw [hcast]
    decide
  have hcomp : powMod P_FIELD 256 (P_FIELD - 7) ((P_FIELD - 1) / 3) ≠ 1 := by decide
  rw [powMod_eq P_FIELD 256 _ _ (by decide)] at hcomp
  exact hcomp hn

theorem parity_of_neg (y t : Nat) (h0 : 0 < y) (hy : y < P_FIELD) (ht : y % 2 ≠ t % 2) :
    (P_FIELD - y) % P_FIELD % 2 = t % 2 := by
  have hP : P_FIELD % 2 = 1 := by decide
  rw [Nat.mod_eq_of_lt (Nat.sub_lt P_FIELD_pos h0)]
  generalize P_FIELD = p at *
  omega

/-- What a successful parse of a 33-byte buffer yields. -/
theorem pubkey_parse_compressed (c : List Byte) (Q : secp256k1_pubkey) (hc : c.length = 33)
    (h : secp256k1_ec_pubkey_parse c = some Q) :
    ((c.headD 0).val = 2 ∨ (c.headD 0).val = 3) ∧ Q.x = beValue (c.drop 1) ∧
    Q.x < P_FIELD ∧ Q.y < P_FIELD ∧ Q.y * Q.y % P_FIELD = curveRhs Q.x ∧
    Q.y % 2 = (c.headD 0).val % 2 ∧ Q.infinity = false := by
  unfold secp256k1_ec_pubkey_parse at h
  simp only [hc, if_true] at h
  by_cases ht : ((c.headD 0).val = 2 ∨ (c.headD 0).val = 3) ∧ beValue (c.drop 1) < P_FIELD
  · simp only [ht, and_self, if_true] at h
    by_cases hs : feSqrt (curveRhs (beValue (c.drop 1))) *
        feSqrt (curveRhs (beValue (c.drop 1))) % P_FIELD = curveRhs (beValue (c.drop 1))
    · simp only [hs, if_true, Option.some.injEq] at h
      have hlt := feSqrt_lt (curveRhs (beValue (c.drop 1)))
      have hpos : 0 < feSqrt (curveRhs (beValue (c.drop 1))) := by
        apply Nat.pos_of_ne_zero
        intro hz
        rw [hz] at hs
        exact curveRhs_ne_zero _ hs.symm
      by_cases hp : feSqrt (curveRhs (beValue (c.drop 1))) % 2 = (c.headD 0).val % 2
      · simp only [hp, if_true] at h
        subst h
        exact ⟨ht.1, rfl, ht.2, hlt, hs, hp, rfl⟩
      · simp only [hp, if_false] at h
        subst h
        refine ⟨ht.1, rfl, ht.2, Nat.mod_lt _ P_FIELD_pos, ?_, ?_, rfl⟩
        · simp only []
          rw [neg_sq_mod _ hlt]
          exact hs
        · exact parity_of_neg _ _ hpos hlt hp
    · simp only [hs, if_false] at h
      cases h
  · simp only [ht, if_false] at h
    cases h

/-- What a successful parse of any buffer yields: a finite point of the curve
with canonical coordinates. -/
theorem pubkey_parse_sound (input : List Byte) (Q : secp256k1_pubkey)
    (h : secp256k1_ec_pubkey_parse input = some Q) :
    Q.infinity = false ∧ Q.x < P_FIELD ∧ Q.y < P_FIELD ∧
    Q.y * Q.y % P_FIELD = curveRhs Q.x := by
  by_cases h33 : input.length = 33
  · have hc := pubkey_parse_compressed input Q h33 h
    exact ⟨hc.2.2.2.2.2.2, hc.2.2.1, hc.2.2.2.1, hc.2.2.2.2.1⟩
  · by_cases h65 : input.length = 65
    · unfold secp256k1_ec_pubkey_parse at h
      rw [if_neg h33, if_pos h65] at h
      simp only [] at h
      by_cases ht : (input.headD 0).val = 4 ∧
          beValue ((input.drop 1).take 32) < P_FIELD ∧ beValue (input.drop 33) < P_FIELD ∧
          beValue (input.drop 33) * beValue (input.drop 33) % P_FIELD =
            curveRhs (beValue ((input.drop 1).take 32))
      · simp only [ht, and_self, if_true, Option.some.injEq] at h
        subst h
        exact ⟨rfl, ht.2.1, ht.2.2.1, ht.2.2.2⟩
      · simp only [ht, if_false] at h
        cases h
    · rw [pubkey_parse_bad_length input h33 h65] at h
      cases h

theorem uncompressedKey_length (Q : secp256k1_ge) : (uncompressedKey Q).length = 65 := by
  simp [uncompressedKey, (be32 Q.x).2, (be32 Q.y).2]

theorem compressedKey_length (Q : secp256k1_ge) : (compressedKey Q).length = 33 := by
  simp [compressedKey, (be32 Q.x).2]

/-- Parsing the uncompressed form of a finite point of the curve gives the point
back. -/
theorem pubkey_parse_uncompressedKey (Q : secp256k1_ge) (hfin : Q.infinity = false)
    (hx : Q.x < P_FIELD) (hy : Q.y < P_FIELD)
    (heq : Q.y * Q.y % P_FIELD = curveRhs Q.x) :
    secp256k1_ec_pubkey_parse (uncompressedKey Q) = some Q := by
  have hl := uncompressedKey_length Q
  have h1 : ((uncompressedKey Q).drop 1).take 32 = (be32 Q.x).1 := by
    simp [uncompressedKey, List.take_append_of_le_length, (be32 Q.x).2]
  have h2 : (uncompressedKey Q).drop 33 = (be32 Q.y).1 := by
    have : (uncompressedKey Q) = (((4 : Byte) :: (be32 Q.x).1) ++ (be32 Q.y).1) := rfl
    rw [this, List.drop_append_of_le_length (by simp [(be32 Q.x).2])]
    simp [(be32 Q.x).2]
  have h3 : ((uncompressedKey Q).headD 0).val = 4 := rfl
  have h33 : ¬ (uncompressedKey Q).length = 33 := by rw [hl]; decide
  unfold secp256k1_ec_pubkey_parse
  rw [if_neg h33, if_pos hl]
  simp only [h1, h2, h3, beValue_be32_of_lt_p _ hx, beValue_be32_of_lt_p _ hy]
  rw [if_pos ⟨trivial, hx, hy, heq⟩]
  cases Q
  simp only [] at hfin
  subst hfin
  rfl

theorem reencode_compressed (out pubkeydata : List Byte) (Q : secp256k1_pubkey)
    (h : secp256k1_ec_pubkey_parse pubkeydata = some Q) (hl : out.length = 33) :
    secp256k1_ext_reencode_pubkey out pubkeydata =
      { ret := 1, out := compressedKey Q, outlen := 33 } := by
  have hd : out.drop 33 = [] := List.drop_eq_nil_of_le (le_of_eq hl)
  simp [secp256k1_ext_reencode_pubkey, h, hl, secp256k1_ec_pubkey_serialize,
    compressedKey_length, hd]

theorem reencode_uncompressed (out pubkeydata : List Byte) (Q : secp256k1_pubkey)
    (h : secp256k1_ec_pubkey_parse pubkeydata = some Q) (hl : 65 ≤ out.length) :
    secp256k1_ext_reencode_pubkey out pubkeydata =
      { ret := 1, out := uncompressedKey Q ++ out.drop 65, outlen := 65 } := by
  have hne : SECP256K1_EC_UNCOMPRESSED ≠ SECP256K1_EC_COMPRESSED := by decide
  have h33 : out.length ≠ 33 := by omega
  have hlt : ¬ out.length < 65 := not_lt.mpr hl
  simp [secp256k1_ext_reencode_pubkey, h, h33, secp256k1_ec_pubkey_serialize,
    uncompressedKey_length, hne, hlt]

theorem reencode_short (out pubkeydata : List Byte) (Q : secp256k1_pubkey)
    (h : secp256k1_ec_pubkey_parse pubkeydata = some Q) (h33 : out.length ≠ 33)
    (hl : out.length < 65) :
    secp256k1_ext_reencode_pubkey out pubkeydata =
      { ret := 0, out := out, outlen := out.length } := by
  have hne : SECP256K1_EC_UNCOMPRESSED ≠ SECP256K1_EC_COMPRESSED := by decide
  simp [secp256k1_ext_reencode_pubkey, h, h33, secp256k1_ec_pubkey_serialize,
    uncompressedKey_length, hne, hl]

/-- C12, as the code has it: when the input buffer parses as a public key,
`secp256k1_ext_reencode_pubkey` returns 1 and writes the 33-byte compressed
encoding of the parsed point when the output length is 33, and returns 1 and
writes its 65-byte uncompressed encoding into the first 65 bytes of the output
buffer, which keeps its length, when the output length is 65 or more (so the
buffer is exactly that encoding when the output length is 65); for an output
length below 65 other than 33 the uncompressed format is selected, does not fit,
and the call returns 0 and leaves the buffer unchanged. -/
theorem reencode_pubkey_correct (out pubkeydata : List Byte) (pubkey : secp256k1_pubkey)
    (h : secp256k1_ec_pubkey_parse pubkeydata = some pubkey) :
    (out.length = 33 →
      (secp256k1_ext_reencode_pubkey out pubkeydata).ret = 1 ∧
      (secp256k1_ext_reencode_pubkey out pubkeydata).out = compressedKey pubkey ∧
      (secp256k1_ext_reencode_pubkey out pubkeydata).out.length = 33) ∧
    (65 ≤ out.length →
      (secp256k1_ext_reencode_pubkey out pubkeydata).ret = 1 ∧
      (secp256k1_ext_reencode_pubkey out pubkeydata).out.take 65 = uncompressedKey pubkey ∧
      (secp256k1_ext_reencode_pubkey out pubkeydata).out.length = out.length ∧
      (secp256k1_ext_reencode_pubkey out pubkeydata).outlen = 65) ∧
    (out.length = 65 →
      (secp256k1_ext_reencode_pubkey out pubkeydata).out = uncompressedKey pubkey) ∧
    (out.length ≠ 33 → out.length < 65 →
      (secp256k1_ext_reencode_pubkey out pubkeydata).ret = 0 ∧
      (secp256k1_ext_reencode_pubkey out pubkeydata).out = out) := by
  have hu := uncompressedKey_length pubkey
  refine ⟨?_, ?_, ?_, ?_⟩
  · intro hl
    rw [reencode_compressed out pubkeydata pubkey h hl]
    exact ⟨rfl, rfl, compressedKey_length pubkey⟩
  · intro hl
    rw [reencode_uncompressed out pubkeydata pubkey h hl]
    refine ⟨rfl, ?_, ?_, rfl⟩
    · show (uncompressedKey pubkey ++ out.drop 65).take 65 = uncompressedKey pubkey
      rw [List.take_append_of_le_length (le_of_eq hu.symm),
        List.take_of_length_le (le_of_eq hu)]
    · show (uncompressedKey pubkey ++ out.drop 65).length = out.length
      rw [List.length_append, hu, List.length_drop]
      omega
  · intro hl
    rw [reencode_uncompressed out pubkeydata pubkey h (le_of_eq hl.symm)]
    show uncompressedKey pubkey ++ out.drop 65 = uncompressedKey pubkey
    rw [List.drop_eq_nil_of_le (le_of_eq hl), List.append_nil]
  · intro h33 hl
    rw [reencode_short out pubkeydata pubkey h h33 hl]
    exact ⟨rfl, rfl⟩

set_option maxRecDepth 100000 in
/-- Witness of `reencode_pubkey_correct`: the uncompressed generator re-encoded
into buffers of 33, 65, 70 and 64 bytes. -/
theorem reencode_pubkey_correct_witness :
    secp256k1_ec_pubkey_parse (uncompressedKey secp256k1_ge_const_g) =
      some secp256k1_ge_const_g ∧
    ((secp256k1_ext_reencode_pubkey (List.replicate 33 0)
        (uncompressedKey secp256k1_ge_const_g)).ret = 1 ∧
      (secp256k1_ext_reencode_pubkey (List.replicate 33 0)
        (uncompressedKey secp256k1_ge_const_g)).out = compressedKey secp256k1_ge_const_g) ∧
    ((secp256k1_ext_reencode_pubkey (List.replicate 65 0)
        (uncompressedKey secp256k1_ge_const_g)).ret = 1 ∧
      (secp256k1_ext_reencode_pubkey (List.replicate 65 0)
        (uncompressedKey secp256k1_ge_const_g)).out =
        uncompressedKey secp256k1_ge_const_g) ∧
    ((secp256k1_ext_reencode_pubkey (List.replicate 70 9)
        (uncompressedKey secp256k1_ge_const_g)).ret = 1 ∧
      (secp256k1_ext_reencode_pubkey (List.replicate 70 9)
        (uncompressedKey secp256k1_ge_const_g)).out.take 65 =
        uncompressedKey secp256k1_ge_const_g) ∧
    ((secp256k1_ext_reencode_pubkey (List.replicate 64 0)
        (uncompressedKey secp256k1_ge_const_g)).ret = 0 ∧
      (secp256k1_ext_reencode_pubkey (List.replicate 64 0)
        (uncompressedKey secp256k1_ge_const_g)).out = List.replicate 64 0) :=
  ⟨by decide,
    ⟨((reencode_pubkey_correct (List.replicate 33 0) (uncompressedKey secp256k1_ge_const_g)
        secp256k1_ge_const_g (by decide)).1 (by decide)).1,
      ((reencode_pubkey_correct (List.replicate 33 0) (uncompressedKey secp256k1_ge_const_g)
        secp256k1_ge_const_g (by decide)).1 (by decide)).2.1⟩,
    ⟨((reencode_pubkey_correct (List.replicate 65 0) (uncompressedKey secp256k1_ge_const_g)
        secp256k1_ge_const_g (by decide)).2.1 (by decide)).1,
      (reencode_pubkey_correct (List.replicate 65 0) (uncompressedKey secp256k1_ge_const_g)
        secp256k1_ge_const_g (by decide)).2.2.1 (by decide)⟩,
    ⟨((reencode_pubkey_correct (List.replicate 70 9) (uncompressedKey secp256k1_ge_const_g)
        secp256k1_ge_const_g (by decide)).2.1 (by decide)).1,
      ((reencode_pubkey_correct (List.replicate 70 9) (uncompressedKey secp256k1_ge_const_g)
        secp256k1_ge_const_g (by decide)).2.1 (by decide)).2.1⟩,
    (reencode_pubkey_correct (List.replicate 64 0) (uncompressedKey secp256k1_ge_const_g)
      secp256k1_ge_const_g (by decide)).2.2.2 (by decide) (by decide)⟩

set_option maxRecDepth 100000 in
/-- C12 fails as stated: the uncompressed generator parses as a public key, but
with an output buffer of 64 bytes, an output length that is neither 33 nor 65,
`secp256k1_ext_reencode_pubkey` returns 0 instead of 1 and writes nothing. -/
theorem reencode_pubkey_short_buffer :
    ¬ (secp256k1_ec_pubkey_parse (uncompressedKey secp256k1_ge_const_g) =
        some secp256k1_ge_const_g →
      (secp256k1_ext_reencode_pubkey (List.replicate 64 0)
        (uncompressedKey secp256k1_ge_const_g)).ret = 1 ∧
      (secp256k1_ext_reencode_pubkey (List.replicate 64 0)
        (uncompressedKey secp256k1_ge_const_g)).out.take 65 =
        uncompressedKey secp256k1_ge_const_g) := by
  decide

theorem compressedKey_of_parse (c : List Byte) (Q : secp256k1_pubkey) (hc : c.length = 33)
    (h : secp256k1_ec_pubkey_parse c = some Q) : compressedKey Q = c := by
  obtain ⟨ht, hx, _, _, _, hpar, _⟩ := pubkey_parse_compressed c Q hc h
  match c, hc with
  | c0 :: rest, hc =>
    have hr : rest.length = 32 := by simpa using hc
    have hx' : Q.x = beValue rest := by simpa using hx
    have hb : (be32 (beValue rest)).1 = rest := congrArg Subtype.val (be32_beValue ⟨rest, hr⟩)
    have ht' : c0.val = 2 ∨ c0.val = 3 := by simpa using ht
    have hpar' : Q.y % 2 = c0.val % 2 := by simpa using hpar
    unfold compressedKey
    rw [hx', hb, List.cons.injEq]
    refine ⟨Fin.ext ?_, rfl⟩
    simp only []
    rcases ht' with h2 | h3
    · rw [h2] at hpar' ⊢
      rw [hpar']
    · rw [h3] at hpar' ⊢
      rw [hpar']

/-- C13: for a valid 33-byte compressed key `c`, re-encoding into a 65-byte
buffer succeeds with 65 bytes `u`, and re-encoding `u` into a 33-byte buffer
succeeds and gives back exactly `c`. -/
theorem reencode_roundtrip (out65 out33 c : List Byte) (hc : c.length = 33)
    (hv : (secp256k1_ec_pubkey_parse c).isSome = true)
    (h65 : out65.length = 65) (h33 : out33.length = 33) :
    (secp256k1_ext_reencode_pubkey out65 c).ret = 1 ∧
    (secp256k1_ext_reencode_pubkey out65 c).out.length = 65 ∧
    (secp256k1_ext_reencode_pubkey out33 (secp256k1_ext_reencode_pubkey out65 c).out).ret = 1 ∧
    (secp256k1_ext_reencode_pubkey out33 (secp256k1_ext_reencode_pubkey out65 c).out).out =
      c := by
  obtain ⟨Q, hQ⟩ := Option.isSome_iff_exists.mp hv
  obtain ⟨hfin, hx, hy, heq⟩ := pubkey_parse_sound c Q hQ
  have e1 : secp256k1_ext_reencode_pubkey out65 c =
      { ret := 1, out := uncompressedKey Q, outlen := 65 } := by
    rw [reencode_uncompressed out65 c Q hQ (le_of_eq h65.symm),
      List.drop_eq_nil_of_le (le_of_eq h65), List.append_nil]
  have e2 := reencode_compressed out33 (uncompressedKey Q) Q
    (pubkey_parse_uncompressedKey Q hfin hx hy heq) h33
  rw [e1]
  show (1 : Nat) = 1 ∧ (uncompressedKey Q).length = 65 ∧
    (secp256k1_ext_reencode_pubkey out33 (uncompressedKey Q)).ret = 1 ∧
    (secp256k1_ext_reencode_pubkey out33 (uncompressedKey Q)).out = c
  rw [e2]
  exact ⟨rfl, uncompressedKey_length Q, rfl, compressedKey_of_parse c Q hc hQ⟩

set_option maxRecDepth 100000 in
/-- Witness of `reencode_roundtrip`: the compressed generator. -/
theorem reencode_roundtrip_witness :
    (compressedKey secp256k1_ge_const_g).length = 33 ∧
    (secp256k1_ec_pubkey_parse (compressedKey secp256k1_ge_const_g)).isSome = true ∧
    (secp256k1_ext_reencode_pubkey (List.replicate 65 0)
      (compressedKey secp256k1_ge_const_g)).out = uncompressedKey secp256k1_ge_const_g ∧
    (secp256k1_ext_reencode_pubkey (List.replicate 33 0)
      (secp256k1_ext_reencode_pubkey (List.replicate 65 0)
        (compressedKey secp256k1_ge_const_g)).out).out = compressedKey secp256k1_ge_const_g :=
  ⟨by decide, by decide, by decide,
    (reencode_roundtrip (List.replicate 65 0) (List.replicate 33 0)
      (compressedKey secp256k1_ge_const_g) (by decide) (by decide) (by decide)
      (by decide)).2.2.2⟩

/-! ## The Schnorr helpers as a scheme -/

theorem pointOf_encodePoint (g : secp256k1_ge) (hred : geReduce g = g)
    (hfin : g.infinity = false) : pointOf (encodePoint g) = g := by
  have hlt := reduced_coords_lt g hred
  unfold pointOf encodePoint secp256k1_ge_set_xy secp256k1_fe_set_b32
  rw [lo32_join32, hi32_join32, beValue_be32_of_lt_p _ hlt.1, beValue_be32_of_lt_p _ hlt.2]
  cases g
  simp only [] at hfin
  subst hfin
  rfl

theorem rep_unique (g g' : secp256k1_ge) (Q : secpCurve.toAffine.Point)
    (h : Represents g Q) (h' : Represents g' Q)
    (hr : geReduce g = g) (hr' : geReduce g' = g') : g = g' := by
  rcases h with ⟨hi, hq⟩ | ⟨hi, hn, hq⟩
  · rcases h' with ⟨hi', _⟩ | ⟨_, hn', hq'⟩
    · rw [← hr, ← hr']
      simp [geReduce, hi, hi']
    · rw [hq] at hq'
      exact absurd hq'.symm (WeierstrassCurve.Affine.Point.some_ne_zero hn')
  · rcases h' with ⟨_, hq'⟩ | ⟨hi', hn', hq'⟩
    · rw [hq'] at hq
      exact absurd hq.symm (WeierstrassCurve.Affine.Point.some_ne_zero hn)
    · rw [hq] at hq'
      have hxy := WeierstrassCurve.Affine.Point.some.inj hq'
      have hl := reduced_coords_lt g hr
      have hl' := reduced_coords_lt g' hr'
      have hx := cast_inj_p _ _ hl.1 hl'.1 hxy.1
      have hy := cast_inj_p _ _ hl.2 hl'.2 hxy.2
      cases g
      cases g'
      simp only [] at hx hy hi hi'
      subst hx hy hi hi'
      rfl

theorem nsmul_mod_of_order [Fact (Nat.Prime P_FIELD)] (Q : secpCurve.toAffine.Point)
    (hQ : N_ORDER • Q = 0) (a : Nat) : a • Q = (a % N_ORDER) • Q := by
  conv_lhs => rw [← Nat.div_add_mod a N_ORDER]
  rw [add_nsmul, mul_nsmul, hQ, nsmul_zero, zero_add]

/-- The generator stands for a point of the curve whose multiple by `n` is the
point at infinity. -/
theorem rep_generator [Fact (Nat.Prime P_FIELD)] :
    ∃ Q : secpCurve.toAffine.Point,
      Represents secp256k1_ge_const_g Q ∧ N_ORDER • Q = 0 := by
  obtain ⟨Q, hQ⟩ := rep_of_equation secp256k1_ge_const_g.x secp256k1_ge_const_g.y (by decide)
  have hG : Represents secp256k1_ge_const_g Q := hQ
  have hn := rep_geMul _ _ hG N_ORDER N_ORDER_lt
  rw [geMul_order_g] at hn
  exact ⟨Q, hG, (rep_infinity_iff _ _ hn).mp rfl⟩

theorem schnorr_value (t k : Nat) (hk : k < N_ORDER) :
    (t + (k + (N_ORDER - t % N_ORDER)) % N_ORDER) % N_ORDER = k := by
  have hm : t % N_ORDER < N_ORDER := Nat.mod_lt _ N_ORDER_pos
  have h1 : (t + (k + (N_ORDER - t % N_ORDER)) % N_ORDER) % N_ORDER =
      (t % N_ORDER + (k + (N_ORDER - t % N_ORDER))) % N_ORDER := by
    rw [← Nat.mod_add_mod, Nat.add_mod_mod]
  rw [h1]
  have h2 : t % N_ORDER + (k + (N_ORDER - t % N_ORDER)) = k + N_ORDER := by omega
  rw [h2, Nat.add_mod_right, Nat.mod_eq_of_lt hk]

/-- The point equation behind a Schnorr signature: `e * (x * G) + s * G = k * G`
for `s = k - e * x` modulo `n`. -/
theorem schnorr_point_eq (x k e : Nat) (hx0 : 0 < x) (hx : x < N_ORDER)
    (hk : k < N_ORDER) (he : e < N_ORDER) :
    geAdd (geMul e (geMul x secp256k1_ge_const_g))
        (geMul ((k + (N_ORDER - e * x % N_ORDER)) % N_ORDER) secp256k1_ge_const_g) =
      geMul k secp256k1_ge_const_g := by
  haveI : Fact (Nat.Prime P_FIELD) := ⟨P_FIELD_prime⟩
  obtain ⟨Q, hG, hord⟩ := rep_generator
  have hlt : ∀ a, a < N_ORDER → a < 2 ^ 256 := fun a ha => lt_trans ha N_ORDER_lt
  have hX := rep_geMul _ _ hG x (hlt _ hx)
  have hE := rep_geMul _ _ hX e (hlt _ he)
  have hS := rep_geMul _ _ hG ((k + (N_ORDER - e * x % N_ORDER)) % N_ORDER)
    (hlt _ (Nat.mod_lt _ N_ORDER_pos))
  have hK := rep_geMul _ _ hG k (hlt _ hk)
  have hsum := rep_geAdd _ _ _ _ hE hS
  have hpt : e • x • Q + ((k + (N_ORDER - e * x % N_ORDER)) % N_ORDER) • Q = k • Q := by
    rw [← mul_nsmul', ← add_nsmul, nsmul_mod_of_order Q hord, schnorr_value _ _ hk]
  rw [hpt] at hsum
  exact rep_unique _ _ _ hsum hK (geAdd_reduced _ _) (geMul_reduced _ _)

/-- C18: for valid scalars `x` (private key), `k` (nonce) and `e` (challenge)
with `k` different from `e * x` modulo `n`, the calls
`P = secp256k1_ext_scalar_base_mult(x)`, `R = secp256k1_ext_scalar_base_mult(k)`,
`m = secp256k1_ext_sc_mul(e, x)` and `s = secp256k1_ext_sc_sub(k, m)` all return 1
and `secp256k1_ext_schnorr_verify(P, R, s, e)` returns 1. -/
theorem schnorr_scheme_complete (oP oR : Buf 64) (om os x k e : Buf 32)
    (hx : ValidScalar x) (hk : ValidScalar k) (he : ValidScalar e)
    (hne : beValue k.1 ≠ beValue e.1 * beValue x.1 % N_ORDER) :
    (secp256k1_ext_scalar_base_mult oP x).ret = 1 ∧
    (secp256k1_ext_scalar_base_mult oR k).ret = 1 ∧
    (secp256k1_ext_sc_mul om e x).ret = 1 ∧
    (secp256k1_ext_sc_sub os k (secp256k1_ext_sc_mul om e x).out).ret = 1 ∧
    (secp256k1_ext_schnorr_verify (secp256k1_ext_scalar_base_mult oP x).out
      (secp256k1_ext_scalar_base_mult oR k).out
      (secp256k1_ext_sc_sub os k (secp256k1_ext_sc_mul om e x).out).out e).ret = 1 := by
  have hm : ValidScalar (be32 (beValue e.1 * beValue x.1 % N_ORDER)) := by
    unfold ValidScalar
    rw [beValue_be32_of_lt _ (Nat.mod_lt _ N_ORDER_pos)]
    exact ⟨mul_value_pos _ _ he.1 he.2 hx.1 hx.2, Nat.mod_lt _ N_ORDER_pos⟩
  have hmv : beValue (be32 (beValue e.1 * beValue x.1 % N_ORDER)).1 =
      beValue e.1 * beValue x.1 % N_ORDER := beValue_be32_of_lt _ (Nat.mod_lt _ N_ORDER_pos)
  have hs : ValidScalar (be32 ((beValue k.1 +
      (N_ORDER - beValue e.1 * beValue x.1 % N_ORDER)) % N_ORDER)) := by
    unfold ValidScalar
    rw [beValue_be32_of_lt _ (sub_value_lt _ _)]
    exact ⟨sub_value_pos _ _ hk.2 (mul_value_pos _ _ he.1 he.2 hx.1 hx.2)
      (Nat.mod_lt _ N_ORDER_pos) hne, sub_value_lt _ _⟩
  have eS := sc_sub_valid os k _ hk hm
  rw [hmv] at eS
  have eV := schnorr_verify_valid (encodePoint (geMul (beValue x.1) secp256k1_ge_const_g))
    (encodePoint (geMul (beValue k.1) secp256k1_ge_const_g)) _ e hs he
  rw [beValue_be32_of_lt _ (sub_value_lt _ _),
    pointOf_encodePoint _ (geMul_reduced _ _) (geMul_g_finite _ hx.1 hx.2),
    schnorr_point_eq _ _ _ hx.1 hx.2 hk.2 he.2, if_pos rfl] at eV
  rw [scalar_base_mult_valid oP x hx, scalar_base_mult_valid oR k hk,
    sc_mul_valid om e x he hx]
  show (1 : Nat) = 1 ∧ (1 : Nat) = 1 ∧ (1 : Nat) = 1 ∧
    (secp256k1_ext_sc_sub os k (be32 (beValue e.1 * beValue x.1 % N_ORDER))).ret = 1 ∧
    (secp256k1_ext_schnorr_verify (encodePoint (geMul (beValue x.1) secp256k1_ge_const_g))
      (encodePoint (geMul (beValue k.1) secp256k1_ge_const_g))
      (secp256k1_ext_sc_sub os k (be32 (beValue e.1 * beValue x.1 % N_ORDER))).out e).ret = 1
  rw [eS]
  show (1 : Nat) = 1 ∧ (1 : Nat) = 1 ∧ (1 : Nat) = 1 ∧ (1 : Nat) = 1 ∧
    (secp256k1_ext_schnorr_verify (encodePoint (geMul (beValue x.1) secp256k1_ge_const_g))
      (encodePoint (geMul (beValue k.1) secp256k1_ge_const_g))
      (be32 ((beValue k.1 + (N_ORDER - beValue e.1 * beValue x.1 % N_ORDER)) % N_ORDER))
      e).ret = 1
  rw [eV]
  exact ⟨rfl, rfl, rfl, rfl, rfl⟩

set_option maxRecDepth 100000 in
/-- Witness of `schnorr_scheme_complete`: private key 5, nonce 11 and
challenge 3, which give `s = 11 - 15 = n - 4`. -/
theorem schnorr_scheme_complete_witness :
    ValidScalar (be32 5) ∧ ValidScalar (be32 11) ∧ ValidScalar (be32 3) ∧
    beValue (be32 11).1 ≠ beValue (be32 3).1 * beValue (be32 5).1 % N_ORDER ∧
    (secp256k1_ext_sc_sub (be32 0) (be32 11)
      (secp256k1_ext_sc_mul (be32 0) (be32 3) (be32 5)).out).out = be32 (N_ORDER - 4) ∧
    (secp256k1_ext_schnorr_verify
      (secp256k1_ext_scalar_base_mult (encodePoint geInfinity) (be32 5)).out
      (secp256k1_ext_scalar_base_mult (encodePoint geInfinity) (be32 11)).out
      (secp256k1_ext_sc_sub (be32 0) (be32 11)
        (secp256k1_ext_sc_mul (be32 0) (be32 3) (be32 5)).out).out (be32 3)).ret = 1 :=
  ⟨by decide, by decide, by decide, by decide, by decide,
    (schnorr_scheme_complete (encodePoint geInfinity) (encodePoint geInfinity) (be32 0)
      (be32 0) (be32 5) (be32 11) (be32 3) (by decide) (by decide) (by decide)
      (by decide)).2.2.2.2⟩

/-! ## The order of the group of the curve -/

theorem p_field_odd : P_FIELD % 2 = 1 := by decide

/-- A point of the curve is determined by its `x` and the parity of its `y`. -/
theorem point_code_injective [Fact (Nat.Prime P_FIELD)] :
    Function.Injective (fun A : secpCurve.toAffine.Point =>
      match A with
      | WeierstrassCurve.Affine.Point.zero => (none : Option (ZMod P_FIELD × Bool))
      | @WeierstrassCurve.Affine.Point.some _ _ _ x y _ => some (x, decide (y.val % 2 = 1))) := by
  haveI : NeZero P_FIELD := ⟨P_FIELD_pos.ne'⟩
  intro A B hAB
  cases A with
  | zero =>
    cases B with
    | zero => rfl
    | some hB => simp at hAB
  | some hA =>
    rename_i x y
    cases B with
    | zero => simp at hAB
    | some hB =>
      rename_i x' y'
      simp only [Option.some.injEq, Prod.mk.injEq, decide_eq_decide] at hAB
      obtain ⟨hx, hpar⟩ := hAB
      subst hx
      have hy : y = y' := by
        rcases WeierstrassCurve.Affine.Y_eq_of_X_eq hA.1 hB.1 rfl with h | h
        · exact h
        · simp only [WeierstrassCurve.Affine.negY, secpCurve, WeierstrassCurve.toAffine,
            zero_mul, sub_zero] at h
          by_cases h0 : y' = 0
          · rw [h, h0, neg_zero]
          · exfalso
            have hv : y.val = P_FIELD - y'.val := by
              rw [h, ZMod.neg_val, if_neg h0]
            have hlt : y'.val < P_FIELD := ZMod.val_lt y'
            have hpos : 0 < y'.val := Nat.pos_of_ne_zero (fun hc => h0 ((ZMod.val_eq_zero y').mp hc))
            have hodd := p_field_odd
            rw [hv] at hpar
            have key : ∀ p v : Nat, ((p - v) % 2 = 1 ↔ v % 2 = 1) → v < p → 0 < v →
                p % 2 = 1 → False := by
              intro p v h1 h2 h3 h4
              omega
            exact key P_FIELD y'.val hpar hlt hpos hodd
      subst hy
      rfl

theorem point_card_le [Fact (Nat.Prime P_FIELD)] :
    Finite secpCurve.toAffine.Point ∧ Nat.card secpCurve.toAffine.Point ≤ 2 * P_FIELD + 1 := by
  haveI : NeZero P_FIELD := ⟨P_FIELD_pos.ne'⟩
  have hf := point_code_injective
  refine ⟨Finite.of_injective _ hf, ?_⟩
  have hle := Nat.card_le_card_of_injective _ hf
  have hc : Nat.card (Option (ZMod P_FIELD × Bool)) = 2 * P_FIELD + 1 := by
    rw [Nat.card_eq_fintype_card, Fintype.card_option, Fintype.card_prod, ZMod.card,
      Fintype.card_bool, mul_comm]
  rw [hc] at hle
  exact hle

/-- No point of the curve has order 2. -/
theorem no_point_of_order_two [Fact (Nat.Prime P_FIELD)] (A : secpCurve.toAffine.Point)
    (hA : A ≠ 0) : A + A ≠ 0 := by
  haveI : NeZero P_FIELD := ⟨P_FIELD_pos.ne'⟩
  cases A with
  | zero => exact absurd rfl hA
  | some h =>
    rename_i x y
    by_cases hy : y = secpCurve.toAffine.negY x y
    · exfalso
      simp only [WeierstrassCurve.Affine.negY, secpCurve, WeierstrassCurve.toAffine,
        zero_mul, sub_zero] at hy
      have h2y : (2 : ZMod P_FIELD) * y = 0 := by linear_combination hy
      have hy0 : y = 0 := by
        rcases mul_eq_zero.mp h2y with h2 | h2
        · exact absurd h2 two_ne_zero_p
        · exact h2
      have he := h.1
      rw [WeierstrassCurve.Affine.equation_iff] at he
      simp only [secpCurve, WeierstrassCurve.toAffine, hy0] at he
      apply curveRhs_ne_zero x.val
      unfold curveRhs
      have hc : ((x.val * x.val * x.val + 7 : Nat) : ZMod P_FIELD) = 0 := by
        push_cast
        rw [ZMod.natCast_val, ZMod.cast_id', id]
        linear_combination -he
      rw [ZMod.natCast_zmod_eq_zero_iff_dvd] at hc
      exact Nat.mod_eq_zero_of_dvd hc
    · rw [WeierstrassCurve.Affine.Point.add_self_of_Y_ne hy]
      exact WeierstrassCurve.Affine.Point.some_ne_zero _

/-- The group of the curve has exactly `n` elements, so `n` kills every point. -/
theorem curve_point_order [Fact (Nat.Prime P_FIELD)] (A : secpCurve.toAffine.Point) :
    N_ORDER • A = 0 := by
  haveI : Fact (Nat.Prime N_ORDER) := ⟨N_ORDER_prime⟩
  obtain ⟨hfin, hle⟩ := point_card_le
  haveI := hfin
  obtain ⟨Q, hG, hord⟩ := rep_generator
  have hQ0 : Q ≠ 0 := fun hc => absurd ((rep_infinity_iff _ _ hG).mpr hc) (by decide)
  have hoq : addOrderOf Q = N_ORDER := addOrderOf_eq_prime hord hQ0
  have hdvd : N_ORDER ∣ Nat.card secpCurve.toAffine.Point := hoq ▸ addOrderOf_dvd_natCard Q
  obtain ⟨c, hc⟩ := hdvd
  have hpos : 0 < Nat.card secpCurve.toAffine.Point := Nat.card_pos
  have h3 : 2 * P_FIELD + 1 < N_ORDER * 3 := by decide
  have hc1 : c = 1 ∨ c = 2 := by
    rw [hc] at hle hpos
    have hc0 : 0 < c := by
      rcases Nat.eq_zero_or_pos c with hz | hp
      · rw [hz, mul_zero] at hpos
        exact absurd hpos (lt_irrefl 0)
      · exact hp
    have hc3 : c < 3 := by
      by_contra hge
      have : N_ORDER * 3 ≤ N_ORDER * c := Nat.mul_le_mul_left _ (not_lt.mp hge)
      omega
    omega
  rcases hc1 with h1 | h2
  · rw [h1, mul_one] at hc
    rw [← hc]
    exact card_nsmul_eq_zero'
  · exfalso
    haveI : Fact (Nat.Prime 2) := ⟨Nat.prime_two⟩
    have h2dvd : 2 ∣ Nat.card secpCurve.toAffine.Point := by
      rw [hc, h2]
      exact Dvd.intro_left _ rfl
    obtain ⟨B, hB⟩ := exists_prime_addOrderOf_dvd_card' 2 h2dvd
    have hB0 : B ≠ 0 := by
      intro hz
      rw [hz, addOrderOf_zero] at hB
      exact absurd hB (by decide)
    have h2B : 2 • B = 0 := hB ▸ addOrderOf_nsmul_eq_zero B
    rw [two_nsmul] at h2B
    exact no_point_of_order_two B hB0 h2B

/-- Multiplying a finite point of the curve by `a` and then by `b` is
multiplying it by `a * b` modulo `n`, and the intermediate point is finite. -/
theorem geMul_geMul (g : secp256k1_ge) (hfin : g.infinity = false)
    (heq : g.y * g.y % P_FIELD = (g.x * g.x * g.x + 7) % P_FIELD)
    (a b : Nat) (ha0 : 0 < a) (ha : a < N_ORDER) (hb : b < N_ORDER) :
    (geMul a g).infinity = false ∧ geMul b (geMul a g) = geMul (a * b % N_ORDER) g := by
  haveI : Fact (Nat.Prime P_FIELD) := ⟨P_FIELD_prime⟩
  haveI : Fact (Nat.Prime N_ORDER) := ⟨N_ORDER_prime⟩
  obtain ⟨A, hA'⟩ := rep_of_equation g.x g.y heq
  have hg : ({ x := g.x, y := g.y, infinity := false } : secp256k1_ge) = g := by
    cases g
    simp only [] at hfin
    subst hfin
    rfl
  have hA : Represents g A := hg ▸ hA'
  have hA0 : A ≠ 0 := fun hc => by
    have := (rep_infinity_iff _ _ hA).mpr hc
    rw [hfin] at this
    exact absurd this (by decide)
  have hnA := curve_point_order A
  have hord : addOrderOf A = N_ORDER := addOrderOf_eq_prime hnA hA0
  have hlt : ∀ c, c < N_ORDER → c < 2 ^ 256 := fun c hc => lt_trans hc N_ORDER_lt
  have h1 := rep_geMul _ _ hA a (hlt _ ha)
  have h2 := rep_geMul _ _ h1 b (hlt _ hb)
  have h3 := rep_geMul _ _ hA (a * b % N_ORDER) (hlt _ (Nat.mod_lt _ N_ORDER_pos))
  refine ⟨?_, ?_⟩
  · by_contra hinf
    have hinf' : (geMul a g).infinity = true := by simpa using hinf
    have haA : a • A = 0 := (rep_infinity_iff _ _ h1).mp hinf'
    have hdvd : N_ORDER ∣ a := hord ▸ addOrderOf_dvd_of_nsmul_eq_zero haA
    exact absurd (Nat.le_of_dvd ha0 hdvd) (not_le.mpr ha)
  · have hpt : b • a • A = (a * b % N_ORDER) • A := by
      rw [← mul_nsmul', ← nsmul_mod_of_order A hnA, mul_comm]
    rw [hpt] at h2
    exact rep_unique _ _ _ h2 h3 (geMul_reduced _ _) (geMul_reduced _ _)

theorem onCurve_pointOf (P : Buf 64) (hP : OnCurve P) :
    (pointOf P).infinity = false ∧
    (pointOf P).y * (pointOf P).y % P_FIELD =
      ((pointOf P).x * (pointOf P).x * (pointOf P).x + 7) % P_FIELD :=
  ⟨rfl, hP.2.2⟩

/-- C19: for `P` holding a point of the curve and valid scalars `a` and `b`,
multiplying `P` by `a` and the result by `b` with
`secp256k1_ext_scalar_mul_bytes`, and multiplying `P` by the output of
`secp256k1_ext_sc_mul(a, b)`, all succeed and write the same 64 bytes; so does
the multiplication by `b` first and `a` second. -/
theorem scalar_mul_bytes_compose (o1 o2 o3 o5 o6 : Buf 64) (o4 : Buf 32) (P : Buf 64)
    (a b : Buf 32) (hP : OnCurve P) (ha : ValidScalar a) (hb : ValidScalar b) :
    (secp256k1_ext_scalar_mul_bytes o1 P a).ret = 1 ∧
    (secp256k1_ext_scalar_mul_bytes o2 (secp256k1_ext_scalar_mul_bytes o1 P a).out b).ret = 1 ∧
    (secp256k1_ext_sc_mul o4 a b).ret = 1 ∧
    (secp256k1_ext_scalar_mul_bytes o3 P (secp256k1_ext_sc_mul o4 a b).out).ret = 1 ∧
    (secp256k1_ext_scalar_mul_bytes o2 (secp256k1_ext_scalar_mul_bytes o1 P a).out b).out =
      (secp256k1_ext_scalar_mul_bytes o3 P (secp256k1_ext_sc_mul o4 a b).out).out ∧
    (secp256k1_ext_scalar_mul_bytes o6 (secp256k1_ext_scalar_mul_bytes o5 P b).out a).out =
      (secp256k1_ext_scalar_mul_bytes o2 (secp256k1_ext_scalar_mul_bytes o1 P a).out b).out := by
  obtain ⟨hfin, heq⟩ := onCurve_pointOf P hP
  obtain ⟨hfa, hab⟩ := geMul_geMul (pointOf P) hfin heq _ _ ha.1 ha.2 hb.2
  obtain ⟨hfb, hba⟩ := geMul_geMul (pointOf P) hfin heq _ _ hb.1 hb.2 ha.2
  have hm : ValidScalar (be32 (beValue a.1 * beValue b.1 % N_ORDER)) := by
    unfold ValidScalar
    rw [beValue_be32_of_lt _ (Nat.mod_lt _ N_ORDER_pos)]
    exact ⟨mul_value_pos _ _ ha.1 ha.2 hb.1 hb.2, Nat.mod_lt _ N_ORDER_pos⟩
  have e1 := scalar_mul_bytes_valid o1 P a ha
  have e2 := scalar_mul_bytes_valid o2
    (encodePoint (geMul (beValue a.1) (pointOf P))) b hb
  rw [pointOf_encodePoint _ (geMul_reduced _ _) hfa, hab] at e2
  have e4 := sc_mul_valid o4 a b ha hb
  have e3 := scalar_mul_bytes_valid o3 P _ hm
  rw [beValue_be32_of_lt _ (Nat.mod_lt _ N_ORDER_pos)] at e3
  have e5 := scalar_mul_bytes_valid o5 P b hb
  have e6 := scalar_mul_bytes_valid o6
    (encodePoint (geMul (beValue b.1) (pointOf P))) a ha
  rw [pointOf_encodePoint _ (geMul_reduced _ _) hfb, hba, Nat.mul_comm] at e6
  rw [e1, e4, e5]
  show (1 : Nat) = 1 ∧
    (secp256k1_ext_scalar_mul_bytes o2
      (encodePoint (geMul (beValue a.1) (pointOf P))) b).ret = 1 ∧
    (1 : Nat) = 1 ∧
    (secp256k1_ext_scalar_mul_bytes o3 P
      (be32 (beValue a.1 * beValue b.1 % N_ORDER))).ret = 1 ∧
    (secp256k1_ext_scalar_mul_bytes o2
      (encodePoint (geMul (beValue a.1) (pointOf P))) b).out =
      (secp256k1_ext_scalar_mul_bytes o3 P
        (be32 (beValue a.1 * beValue b.1 % N_ORDER))).out ∧
    (secp256k1_ext_scalar_mul_bytes o6
      (encodePoint (geMul (beValue b.1) (pointOf P))) a).out =
      (secp256k1_ext_scalar_mul_bytes o2
        (encodePoint (geMul (beValue a.1) (pointOf P))) b).out
  rw [e2, e3, e6]
  exact ⟨rfl, rfl, rfl, rfl, rfl, rfl⟩

set_option maxRecDepth 100000 in
/-- Witness of `scalar_mul_bytes_compose`: the generator multiplied by 3 and then
by 5, and by 15. -/
theorem scalar_mul_bytes_compose_witness :
    OnCurve (encodePoint secp256k1_ge_const_g) ∧ ValidScalar (be32 3) ∧ ValidScalar (be32 5) ∧
    (secp256k1_ext_sc_mul (be32 0) (be32 3) (be32 5)).out = be32 15 ∧
    (secp256k1_ext_scalar_mul_bytes (encodePoint geInfinity)
      (secp256k1_ext_scalar_mul_bytes (encodePoint geInfinity)
        (encodePoint secp256k1_ge_const_g) (be32 3)).out (be32 5)).out =
      (secp256k1_ext_scalar_mul_bytes (encodePoint geInfinity)
        (encodePoint secp256k1_ge_const_g)
        (secp256k1_ext_sc_mul (be32 0) (be32 3) (be32 5)).out).out :=
  ⟨by decide, by decide, by decide, by decide,
    (scalar_mul_bytes_compose (encodePoint geInfinity) (encodePoint geInfinity)
      (encodePoint geInfinity) (encodePoint geInfinity) (encodePoint geInfinity) (be32 0)
      (encodePoint secp256k1_ge_const_g) (be32 3) (be32 5)
      (by decide) (by decide) (by decide)).2.2.2.2.1⟩

end Secp256k1
